import Mathlib

/-! Ray tracer core: sphere intersection and recursive tracing.

Shallow embedding of `vec3.h`, `ray.h`, `sphere.h`, `scene.h` and `scene.cpp`.

The C++ `float` is embedded as an arbitrary linearly ordered field `F` with a
floor function, and `std::sqrt` is a parameter `sqrt : F → F`, so every
definition below is executable (for instance over `ℚ`).  The theorems are
stated over `F = ℝ` with `sqrt = Real.sqrt`: exact real arithmetic, no
rounding, no NaN, no infinities.  The literals `1e-6`, `1e-4f`, `0.2f` are the
rationals `1/1000000`, `1/10000`, `1/5`.  `Sphere::intersect` is embedded a
second time in the binary32 arithmetic of the code (`Sphere.intersect32`), to
evaluate it where rounding changes the result.

`int` is the 32-bit integer: the conversion `static_cast<int>` of a float is
truncation towards zero inside the `int` range and `-2^31` outside it (see
`truncToInt`).  An `unsigned char` is a natural number, and a conversion to
`unsigned char` is reduction modulo 256.
-/

namespace Raytracing

/-! ## vec3.h -/

/-- Class `Vec3`: three components. -/
structure Vec3 (F : Type) where
  x : F
  y : F
  z : F
  deriving DecidableEq, Repr

namespace Vec3

variable {F : Type} [LinearOrderedField F]

/-- The default constructor `Vec3()`: all components zero. -/
def zero : Vec3 F := ⟨0, 0, 0⟩

/-- The operator `Vec3::operator+`. -/
def add (v other : Vec3 F) : Vec3 F :=
  ⟨v.x + other.x, v.y + other.y, v.z + other.z⟩

/-- The operator `Vec3::operator-`. -/
def sub (v other : Vec3 F) : Vec3 F :=
  ⟨v.x - other.x, v.y - other.y, v.z - other.z⟩

/-- The operator `Vec3::operator*(float)`. -/
def smul (v : Vec3 F) (scalar : F) : Vec3 F :=
  ⟨v.x * scalar, v.y * scalar, v.z * scalar⟩

instance : Add (Vec3 F) := ⟨add⟩
instance : Sub (Vec3 F) := ⟨sub⟩
instance : HMul (Vec3 F) F (Vec3 F) := ⟨smul⟩

/-- The method `Vec3::dot`. -/
def dot (v other : Vec3 F) : F :=
  v.x * other.x + v.y * other.y + v.z * other.z

/-- The method `Vec3::length`: `std::sqrt(dot(*this))`. -/
def length (sqrt : F → F) (v : Vec3 F) : F :=
  sqrt (v.dot v)

/-- The method `Vec3::normalize`, with its guard `len < 1e-6`. -/
def normalize (sqrt : F → F) (v : Vec3 F) : Vec3 F :=
  let len := v.length sqrt
  if len < 1 / 1000000 then
    ⟨0, 0, 0⟩
  else
    v * (1 / len)

end Vec3

/-! ## ray.h -/

/-- Class `Ray`: origin and direction. -/
structure Ray (F : Type) where
  origin : Vec3 F
  direction : Vec3 F
  deriving DecidableEq, Repr

/-- The method `Ray::at`: `origin + direction * t`. -/
def Ray.at {F : Type} [LinearOrderedField F] (ray : Ray F) (t : F) : Vec3 F :=
  ray.origin + ray.direction * t

/-! ## sphere.h -/

/-- Struct `Color`: three `unsigned char` channels, held as naturals. -/
structure Color where
  r : Nat
  g : Nat
  b : Nat
  deriving DecidableEq, Repr

/-- Class `Sphere`. -/
structure Sphere (F : Type) where
  center : Vec3 F
  radius : F
  color : Color
  specular : F
  deriving DecidableEq, Repr

/-- The method `Sphere::intersect`; `std::nullopt` is `none`.  The quotient by
`2 * a` is the quotient of the field: for a zero direction (`a = 0`), where the
C++ quotient is not a number, the embedding does not follow the code, and the
statements about the returned value assume a non-zero direction. -/
def Sphere.intersect {F : Type} [LinearOrderedField F] (sqrt : F → F)
    (s : Sphere F) (ray : Ray F) : Option F :=
  let oc := ray.origin - s.center
  let a := ray.direction.dot ray.direction
  let b := 2 * oc.dot ray.direction
  let c := oc.dot oc - s.radius * s.radius
  let discriminant := b * b - 4 * a * c
  if discriminant < 0 then
    none
  else
    let t := (-b - sqrt discriminant) / (2 * a)
    if t < 0 then
      let t := (-b + sqrt discriminant) / (2 * a)
      if t < 0 then
        none
      else
        some t
    else
      some t

/-! ## scene.h and scene.cpp -/

/-- Class `Scene`: the spheres and lights in insertion order, and the ambient
term. -/
structure Scene (F : Type) where
  spheres : List (Sphere F)
  lights : List (Vec3 F)
  ambient_light : F

section Tracer

variable {F : Type} [LinearOrderedField F] [FloorRing F]

/-- The constructor `Scene()`: no spheres, no lights, `ambient_light(0.2f)`. -/
def Scene.init : Scene F := ⟨[], [], 1 / 5⟩

/-- The method `Scene::add_sphere`: `spheres.push_back(sphere)`. -/
def Scene.add_sphere (sc : Scene F) (sphere : Sphere F) : Scene F :=
  { sc with spheres := sc.spheres ++ [sphere] }

/-- The method `Scene::add_light`: `lights.push_back(light)`. -/
def Scene.add_light (sc : Scene F) (light : Vec3 F) : Scene F :=
  { sc with lights := sc.lights ++ [light] }

/-- The conversion `static_cast<int>(x)` of a float: truncation towards zero
when the truncated value fits the 32-bit `int`.  Outside that range the C++
conversion is undefined; the embedding gives it the value that the x86-64
conversion instruction returns there, `-2^31`. -/
def truncToInt (x : F) : Int :=
  let i := if 0 ≤ x then Int.floor x else Int.ceil x
  if -2147483648 ≤ i ∧ i ≤ 2147483647 then i else -2147483648

/-- The conversion of an integer to `unsigned char`: reduction modulo 256. -/
def toUChar (i : Int) : Nat :=
  (i % 256).toNat

/-- One iteration of the closest-hit loop of `Scene::trace_ray`.  The state is
`none` while `closest_sphere` is `nullptr` (and `closest_t` is infinite), and
`some (closest_t, closest_sphere)` afterwards. -/
def closest_step (sqrt : F → F) (ray : Ray F) (closest : Option (F × Sphere F))
    (sphere : Sphere F) : Option (F × Sphere F) :=
  match sphere.intersect sqrt ray with
  | none => closest
  | some t =>
    match closest with
    | none => some (t, sphere)
    | some (closest_t, _) => if t < closest_t then some (t, sphere) else closest

/-- The closest-hit loop of `Scene::trace_ray` over the spheres in order. -/
def closest_hit (sqrt : F → F) (spheres : List (Sphere F)) (ray : Ray F) :
    Option (F × Sphere F) :=
  spheres.foldl (closest_step sqrt ray) none

/-- One iteration of the lighting loop of `Scene::trace_ray`: from the
intensity before the light to the intensity after it.  Each `continue` leaves
the loop body with the intensity accumulated so far. -/
def light_step (sqrt : F → F) (ray : Ray F) (hit_point normal : Vec3 F)
    (sphere_specular : F) (intensity : F) (light : Vec3 F) : F :=
  let light_dir := light - hit_point
  let light_dist := light_dir.length sqrt
  if light_dist < 1 / 1000000 then
    intensity
  else
    let light_dir := light_dir * (1 / light_dist)
    let diffuse := max 0 (normal.dot light_dir)
    let intensity := intensity + diffuse
    if sphere_specular > 0 then
      let view_dir := ray.origin - hit_point
      let view_dist := view_dir.length sqrt
      if view_dist < 1 / 1000000 then
        intensity
      else
        let view_dir := view_dir * (1 / view_dist)
        let reflect_dir := normal * (2 * normal.dot light_dir) - light_dir
        let reflect_dist := reflect_dir.length sqrt
        if reflect_dist < 1 / 1000000 then
          intensity
        else
          let reflect_dir := reflect_dir * (1 / reflect_dist)
          let specular := (max 0 (view_dir.dot reflect_dir)) ^ 32
          intensity + specular * sphere_specular
    else
      intensity

/-- The lighting loop of `Scene::trace_ray`: starts from `ambient_light` and
runs over the lights in order. -/
def lighting (sqrt : F → F) (sc : Scene F) (ray : Ray F) (hit_point normal : Vec3 F)
    (sphere_specular : F) : F :=
  sc.lights.foldl (light_step sqrt ray hit_point normal sphere_specular) sc.ambient_light

/-- The integer handed to the `Color` constructor for one channel:
`std::min(255, static_cast<int>(channel * intensity))`. -/
def shade_channel (channel : Nat) (intensity : F) : Int :=
  min 255 (truncToInt ((channel : F) * intensity))

/-- The base shaded colour `Color color(...)` of `Scene::trace_ray`; the
constructor converts each `int` argument to `unsigned char`. -/
def shade (base : Color) (intensity : F) : Color :=
  ⟨toUChar (shade_channel base.r intensity),
   toUChar (shade_channel base.g intensity),
   toUChar (shade_channel base.b intensity)⟩

/-- The reflection ray of `Scene::trace_ray`, or `none` when no recursive call
is made: the sphere's specular coefficient is not positive, or the mirror
direction has length at most `1e-6`. -/
def reflect_ray (sqrt : F → F) (ray : Ray F) (hit_point normal : Vec3 F)
    (sphere_specular : F) : Option (Ray F) :=
  if sphere_specular > 0 then
    let reflect_dir := ray.direction - normal * (2 * normal.dot ray.direction)
    let reflect_dist := reflect_dir.length sqrt
    if reflect_dist > 1 / 1000000 then
      let reflect_dir := reflect_dir * (1 / reflect_dist)
      let offset_point := hit_point + normal * ((1 : F) / 10000)
      some ⟨offset_point, reflect_dir⟩
    else
      none
  else
    none

/-- One blended channel of `Scene::trace_ray`:
`static_cast<unsigned char>(c * (1 - specular) + reflected * specular)`. -/
def blend_channel (c reflected : Nat) (sphere_specular : F) : Nat :=
  toUChar (truncToInt ((c : F) * (1 - sphere_specular) + (reflected : F) * sphere_specular))

/-- The blend of the base shaded colour with the reflected colour. -/
def blend (color reflect_color : Color) (sphere_specular : F) : Color :=
  ⟨blend_channel color.r reflect_color.r sphere_specular,
   blend_channel color.g reflect_color.g sphere_specular,
   blend_channel color.b reflect_color.b sphere_specular⟩

/-- The method `Scene::trace_ray`.  The recursion is on `6 - depth`. -/
def Scene.trace_ray (sqrt : F → F) (sc : Scene F) (ray : Ray F) (depth : Int) : Color :=
  if depth > 5 then
    ⟨0, 0, 0⟩
  else
    match closest_hit sqrt sc.spheres ray with
    | none => ⟨0, 0, 0⟩
    | some (closest_t, closest_sphere) =>
      let hit_point := ray.at closest_t
      let normal := (hit_point - closest_sphere.center).normalize sqrt
      let intensity := lighting sqrt sc ray hit_point normal closest_sphere.specular
      let color := shade closest_sphere.color intensity
      match reflect_ray sqrt ray hit_point normal closest_sphere.specular with
      | none => color
      | some reflect_ray =>
        let reflect_color := Scene.trace_ray sqrt sc reflect_ray (depth + 1)
        blend color reflect_color closest_sphere.specular
termination_by (6 - depth).toNat
decreasing_by omega

/-- The outcome of an instrumented run of `Scene::trace_ray`: the colour
returned, the number of recursive calls of `trace_ray` made below this call,
and the number of calls of `Sphere::intersect`. -/
structure Run where
  color : Color
  calls : Nat
  tests : Nat
  deriving DecidableEq, Repr

/-- Instrumented `Scene::trace_ray` on a call stack of at most `fuel` frames:
`none` when the stack is exhausted, otherwise the colour with the counts of
recursive calls and of intersection tests.  Every invocation takes one
frame. -/
def Scene.trace_ray_fuel (sqrt : F → F) (sc : Scene F) :
    Nat → Ray F → Int → Option Run
  | 0, _, _ => none
  | fuel + 1, ray, depth =>
    if depth > 5 then
      some ⟨⟨0, 0, 0⟩, 0, 0⟩
    else
      match closest_hit sqrt sc.spheres ray with
      | none => some ⟨⟨0, 0, 0⟩, 0, sc.spheres.length⟩
      | some (closest_t, closest_sphere) =>
        let hit_point := ray.at closest_t
        let normal := (hit_point - closest_sphere.center).normalize sqrt
        let intensity := lighting sqrt sc ray hit_point normal closest_sphere.specular
        let color := shade closest_sphere.color intensity
        match reflect_ray sqrt ray hit_point normal closest_sphere.specular with
        | none => some ⟨color, 0, sc.spheres.length⟩
        | some reflect_ray =>
          match Scene.trace_ray_fuel sqrt sc fuel reflect_ray (depth + 1) with
          | none => none
          | some sub =>
            some ⟨blend color sub.color closest_sphere.specular, sub.calls + 1,
              sub.tests + sc.spheres.length⟩

/-! ## Quantities named in the statements -/

/-- The local `a` of `Sphere::intersect`: `dot(direction, direction)`. -/
def Sphere.coeff_a (ray : Ray F) : F :=
  ray.direction.dot ray.direction

/-- The local `b` of `Sphere::intersect`: `2 * dot(oc, direction)`. -/
def Sphere.coeff_b (s : Sphere F) (ray : Ray F) : F :=
  2 * (ray.origin - s.center).dot ray.direction

/-- The local `c` of `Sphere::intersect`: `dot(oc, oc) - radius * radius`. -/
def Sphere.coeff_c (s : Sphere F) (ray : Ray F) : F :=
  (ray.origin - s.center).dot (ray.origin - s.center) - s.radius * s.radius

/-- The local `discriminant` of `Sphere::intersect`: `b * b - 4 * a * c`. -/
def Sphere.discriminant (s : Sphere F) (ray : Ray F) : F :=
  s.coeff_b ray * s.coeff_b ray - 4 * Sphere.coeff_a ray * s.coeff_c ray

/-- The first value of `t` in `Sphere::intersect`, the smaller root
`(-b - sqrt(discriminant)) / (2a)`. -/
def Sphere.root_near (sqrt : F → F) (s : Sphere F) (ray : Ray F) : F :=
  (-s.coeff_b ray - sqrt (s.discriminant ray)) / (2 * Sphere.coeff_a ray)

/-- The second value of `t` in `Sphere::intersect`, the larger root
`(-b + sqrt(discriminant)) / (2a)`. -/
def Sphere.root_far (sqrt : F → F) (s : Sphere F) (ray : Ray F) : F :=
  (-s.coeff_b ray + sqrt (s.discriminant ray)) / (2 * Sphere.coeff_a ray)

/-- The point of the ray at parameter `t` lies on the surface of the sphere:
`|origin + direction * t - center|^2 = radius^2`. -/
def Sphere.on_surface (s : Sphere F) (ray : Ray F) (t : F) : Prop :=
  (ray.at t - s.center).dot (ray.at t - s.center) = s.radius ^ 2

instance (s : Sphere F) (ray : Ray F) (t : F) : Decidable (s.on_surface ray t) :=
  inferInstanceAs (Decidable (_ = _))

/-- The three channels of a colour, in the order `r`, `g`, `b`. -/
def Color.channel (c : Color) : Fin 3 → Nat
  | 0 => c.r
  | 1 => c.g
  | 2 => c.b

/-- The intensity named by the statements for a hit on a matte sphere:
`ambient_light` plus, over the lights at distance at least `1e-6` of the hit
point, `max(0, normal . light_dir)` with `light_dir` the normalised direction
from the hit point to the light. -/
def diffuse_intensity (sqrt : F → F) (sc : Scene F) (hit_point normal : Vec3 F) : F :=
  sc.ambient_light +
    ((sc.lights.filter (fun light => ¬ (light - hit_point).length sqrt < 1 / 1000000)).map
      (fun light => max 0 (normal.dot
        ((light - hit_point) * (1 / (light - hit_point).length sqrt))))).sum

/-- The scenes that the class interface can build: `Scene()` followed by calls
of `add_sphere` and `add_light`. -/
inductive Scene.Built : Scene F → Prop
  | init : Scene.Built Scene.init
  | add_sphere (sc : Scene F) (sphere : Sphere F) :
      Scene.Built sc → Scene.Built (sc.add_sphere sphere)
  | add_light (sc : Scene F) (light : Vec3 F) :
      Scene.Built sc → Scene.Built (sc.add_light light)

/-- The invariant that the specification asks of a sphere: `radius > 0` and the
specular coefficient in `[0, 1]`. -/
def Sphere.valid (s : Sphere F) : Prop :=
  0 < s.radius ∧ 0 ≤ s.specular ∧ s.specular ≤ 1

instance (s : Sphere F) : Decidable s.valid :=
  inferInstanceAs (Decidable (_ ∧ _))

/-! ## Concrete inputs -/

/-- The red sphere of `main.cpp`: centre `(0,0,-5)`, radius 1, colour
`(255,0,0)`, with the given specular coefficient. -/
def redSphere (specular : F) : Sphere F :=
  ⟨⟨0, 0, -5⟩, 1, ⟨255, 0, 0⟩, specular⟩

/-- The ray from `(0,0,0)` with direction `(0,0,-1)`. -/
def axisRay : Ray F :=
  ⟨⟨0, 0, 0⟩, ⟨0, 0, -1⟩⟩

/-- The ray from `(0,0,z)` with direction `(0,0,-1)`. -/
def downRay (z : F) : Ray F :=
  ⟨⟨0, 0, z⟩, ⟨0, 0, -1⟩⟩

/-- The ray from `(0,0,z)` with direction `(0,0,1)`. -/
def upRay (z : F) : Ray F :=
  ⟨⟨0, 0, z⟩, ⟨0, 0, 1⟩⟩

/-- A blue sphere facing the red one: centre `(0,0,5)`, radius 1. -/
def facingSphere (specular : F) : Sphere F :=
  ⟨⟨0, 0, 5⟩, 1, ⟨0, 0, 255⟩, specular⟩

/-- Two mutually facing spheres with specular coefficient 1, no lights. -/
def mirrorScene : Scene F :=
  (Scene.init.add_sphere (redSphere 1)).add_sphere (facingSphere 1)

/-- The red sphere alone, with specular coefficient 0, no lights. -/
def matteScene : Scene F :=
  Scene.init.add_sphere (redSphere 0)

/-- The end-to-end example of the specification: the red sphere with specular
0, ambient 0.2 and one light at `(5,5,-5)`. -/
def exampleScene : Scene F :=
  (Scene.init.add_sphere (redSphere 0)).add_light ⟨5, 5, -5⟩

/-- The matte scene with one light placed at `(0,0,-4)`, the point where the
ray down the z axis hits the red sphere. -/
def lightAtHitScene : Scene F :=
  (Scene.init.add_sphere (redSphere 0)).add_light ⟨0, 0, -4⟩

/-- A sphere with radius `-1` and specular coefficient `2`. -/
def badSphere : Sphere F :=
  ⟨⟨0, 0, 0⟩, -1, ⟨255, 255, 255⟩, 2⟩

/-- The matte scene lit by 9000000 lights, all at `(0,0,0)`. -/
def floodScene : Scene F :=
  ⟨[redSphere 0], List.replicate 9000000 ⟨0, 0, 0⟩, 1 / 5⟩

/-- A sphere of radius 1 around `(0,0,-5000)`. -/
def farSphere : Sphere F :=
  ⟨⟨0, 0, -5000⟩, 1, ⟨255, 0, 0⟩, 0⟩

end Tracer

/-! ## `Sphere::intersect` in binary32 arithmetic

The `float` of the code is the IEEE-754 binary32 format.  Its finite values are
rationals, and every arithmetic operation returns the exact result rounded to
the nearest value of the format, ties to the even significand.  The definitions
below cover the finite values of magnitude below `2^128`; infinities and NaN
(overflow, division by zero) are not represented.  Each product and each sum of
the source is rounded on its own. -/

section Binary32

/-- The integer nearest to a rational, ties to the even integer. -/
def roundHalfEven (q : ℚ) : Int :=
  let f := Int.floor q
  let r := q - f
  if r < 1 / 2 then f else if 1 / 2 < r then f + 1 else if f % 2 = 0 then f else f + 1

/-- The binary exponent of a non-zero rational `x`: the `e` with
`2^e ≤ |x| < 2^(e+1)`. -/
def binaryExponent (x : ℚ) : Int :=
  let e0 : Int := (Nat.log 2 x.num.natAbs : Int) - (Nat.log 2 x.den : Int)
  if (2 : ℚ) ^ e0 ≤ |x| then e0 else e0 - 1

/-- The binary32 value nearest to a rational: 24 significant bits, least
exponent `-126`, ties to even. -/
def roundF32 (x : ℚ) : ℚ :=
  if x = 0 then 0
  else
    let e := max (binaryExponent x) (-126)
    let ulp := (2 : ℚ) ^ (e - 23)
    (roundHalfEven (x / ulp) : ℚ) * ulp

/-- The `float` sum. -/
def fadd (a b : ℚ) : ℚ := roundF32 (a + b)

/-- The `float` difference. -/
def fsub (a b : ℚ) : ℚ := roundF32 (a - b)

/-- The `float` product. -/
def fmul (a b : ℚ) : ℚ := roundF32 (a * b)

/-- The `float` quotient, for a non-zero divisor. -/
def fdiv (a b : ℚ) : ℚ := roundF32 (a / b)

/-- The `float` square root `std::sqrt` of a binary32 value `x ≥ 0`, correctly
rounded: `x` is scaled by a power of 4 to an integer of more than 64 bits, whose
integer square root `r` is exact or has the real root strictly between `r` and
`r + 1`, where no binary32 value and no midpoint of two of them lies. -/
def fsqrt (x : ℚ) : ℚ :=
  if x ≤ 0 then 0
  else
    let k : Int := 40 - binaryExponent x / 2
    let y := x * (4 : ℚ) ^ k
    let r := Nat.sqrt (Int.toNat (Int.floor y))
    roundF32 ((if ((r * r : Nat) : ℚ) = y then (r : ℚ) else (r : ℚ) + 1 / 2) / (2 : ℚ) ^ k)

/-- The operator `Vec3::operator-` on `float` components. -/
def Vec3.sub32 (v other : Vec3 ℚ) : Vec3 ℚ :=
  ⟨fsub v.x other.x, fsub v.y other.y, fsub v.z other.z⟩

/-- The method `Vec3::dot` on `float` components:
`x * other.x + y * other.y + z * other.z`, left to right. -/
def Vec3.dot32 (v other : Vec3 ℚ) : ℚ :=
  fadd (fadd (fmul v.x other.x) (fmul v.y other.y)) (fmul v.z other.z)

/-- The method `Sphere::intersect` on `float` values, operation by operation,
for a ray with non-zero direction. -/
def Sphere.intersect32 (s : Sphere ℚ) (ray : Ray ℚ) : Option ℚ :=
  let oc := ray.origin.sub32 s.center
  let a := ray.direction.dot32 ray.direction
  let b := fmul 2 (oc.dot32 ray.direction)
  let c := fsub (oc.dot32 oc) (fmul s.radius s.radius)
  let discriminant := fsub (fmul b b) (fmul (fmul 4 a) c)
  if discriminant < 0 then
    none
  else
    let t := fdiv (fsub (-b) (fsqrt discriminant)) (fmul 2 a)
    if t < 0 then
      let t := fdiv (fadd (-b) (fsqrt discriminant)) (fmul 2 a)
      if t < 0 then
        none
      else
        some t
    else
      some t

end Binary32

/-! ## Properties of `Sphere::intersect` -/

section Intersect

theorem Vec3.add_def (v w : Vec3 ℝ) : v + w = ⟨v.x + w.x, v.y + w.y, v.z + w.z⟩ := rfl

theorem Vec3.sub_def (v w : Vec3 ℝ) : v - w = ⟨v.x - w.x, v.y - w.y, v.z - w.z⟩ := rfl

theorem Vec3.smul_def (v : Vec3 ℝ) (k : ℝ) : v * k = ⟨v.x * k, v.y * k, v.z * k⟩ := rfl

/-- The body of `Sphere::intersect` in terms of its named locals. -/
theorem intersect_unfold (s : Sphere ℝ) (ray : Ray ℝ) :
    s.intersect Real.sqrt ray =
      if s.discriminant ray < 0 then none
      else if s.root_near Real.sqrt ray < 0 then
        (if s.root_far Real.sqrt ray < 0 then none else some (s.root_far Real.sqrt ray))
      else some (s.root_near Real.sqrt ray) := rfl

theorem Vec3.dot_self_nonneg (v : Vec3 ℝ) : 0 ≤ v.dot v := by
  simp only [Vec3.dot]
  nlinarith [mul_self_nonneg v.x, mul_self_nonneg v.y, mul_self_nonneg v.z]

theorem Vec3.dot_self_pos (v : Vec3 ℝ) (h : v ≠ ⟨0, 0, 0⟩) : 0 < v.dot v := by
  rcases lt_or_eq_of_le (Vec3.dot_self_nonneg v) with h0 | h0
  · exact h0
  · exfalso
    apply h
    obtain ⟨x, y, z⟩ := v
    simp only [Vec3.dot] at h0
    have hx : x = 0 := by nlinarith [mul_self_nonneg x, mul_self_nonneg y, mul_self_nonneg z]
    have hy : y = 0 := by nlinarith [mul_self_nonneg x, mul_self_nonneg y, mul_self_nonneg z]
    have hz : z = 0 := by nlinarith [mul_self_nonneg x, mul_self_nonneg y, mul_self_nonneg z]
    subst hx hy hz
    rfl

theorem Vec3.dot_self_of_length_one (u : Vec3 ℝ) (hu : u.length Real.sqrt = 1) :
    u.dot u = 1 :=
  Real.sqrt_eq_one.1 hu

/-- A quadratic with a square root of its discriminant factors over its two
roots. -/
theorem quad_factor (a b c sq t : ℝ) (ha : a ≠ 0) (hsq : sq * sq = b * b - 4 * a * c) :
    a * (t * t) + b * t + c = a * (t - (-b - sq) / (2 * a)) * (t - (-b + sq) / (2 * a)) := by
  field_simp
  linear_combination a * hsq

/-- Lying on the surface is the quadratic equation solved by the code. -/
theorem on_surface_iff (s : Sphere ℝ) (ray : Ray ℝ) (t : ℝ) :
    s.on_surface ray t ↔
      Sphere.coeff_a ray * (t * t) + s.coeff_b ray * t + s.coeff_c ray = 0 := by
  simp only [Sphere.on_surface, Ray.at, Vec3.dot, Vec3.add_def, Vec3.sub_def, Vec3.smul_def,
    Sphere.coeff_a, Sphere.coeff_b, Sphere.coeff_c]
  constructor <;> intro h <;> linarith

theorem on_surface_disc_nonneg (s : Sphere ℝ) (ray : Ray ℝ) (t : ℝ)
    (h : s.on_surface ray t) : 0 ≤ s.discriminant ray := by
  have hq := (on_surface_iff s ray t).1 h
  have e : s.discriminant ray
      = (2 * Sphere.coeff_a ray * t + s.coeff_b ray)
          * (2 * Sphere.coeff_a ray * t + s.coeff_b ray) := by
    unfold Sphere.discriminant
    linear_combination (-4 * Sphere.coeff_a ray) * hq
  rw [e]
  exact mul_self_nonneg _

theorem on_surface_iff_root (s : Sphere ℝ) (ray : Ray ℝ) (ha : 0 < Sphere.coeff_a ray)
    (hd : 0 ≤ s.discriminant ray) (t : ℝ) :
    s.on_surface ray t ↔
      (t = s.root_near Real.sqrt ray ∨ t = s.root_far Real.sqrt ray) := by
  rw [on_surface_iff, quad_factor _ _ _ (Real.sqrt (s.discriminant ray)) t ha.ne'
    (Real.mul_self_sqrt hd), mul_assoc, mul_eq_zero, mul_eq_zero, sub_eq_zero, sub_eq_zero]
  simp only [ha.ne', false_or]
  rfl

theorem root_near_le_far (s : Sphere ℝ) (ray : Ray ℝ) (ha : 0 < Sphere.coeff_a ray) :
    s.root_near Real.sqrt ray ≤ s.root_far Real.sqrt ray := by
  unfold Sphere.root_near Sphere.root_far
  have := Real.sqrt_nonneg (s.discriminant ray)
  apply div_le_div_of_nonneg_right _ (by linarith)
  linarith

/-- C1. Over the reals and for a ray with non-zero direction,
`Sphere::intersect` returns `some t` exactly when `t` is the smallest `t ≥ 0`
whose point `origin + direction * t` lies on the sphere surface, and returns
`none` exactly when no `t ≥ 0` lies on the surface. -/
theorem intersect_nearest_crossing (s : Sphere ℝ) (ray : Ray ℝ)
    (hdir : ray.direction ≠ ⟨0, 0, 0⟩) :
    (∀ t : ℝ, s.intersect Real.sqrt ray = some t ↔
      (0 ≤ t ∧ s.on_surface ray t ∧ ∀ u : ℝ, 0 ≤ u → s.on_surface ray u → t ≤ u)) ∧
    (s.intersect Real.sqrt ray = none ↔ ¬ ∃ t : ℝ, 0 ≤ t ∧ s.on_surface ray t) := by
  have ha : 0 < Sphere.coeff_a ray := Vec3.dot_self_pos _ hdir
  have hle := root_near_le_far s ray ha
  rw [intersect_unfold]
  by_cases hd : s.discriminant ray < 0
  · have hno : ∀ t : ℝ, ¬ s.on_surface ray t := by
      intro t ht
      have := on_surface_disc_nonneg s ray t ht
      linarith
    rw [if_pos hd]
    refine ⟨fun t => ⟨fun h => by simp at h, fun h => absurd h.2.1 (hno t)⟩, ?_⟩
    simp only [true_iff]
    rintro ⟨t, -, ht⟩
    exact hno t ht
  · rw [if_neg hd]
    have hroot := on_surface_iff_root s ray ha (not_lt.1 hd)
    by_cases hn : s.root_near Real.sqrt ray < 0
    · rw [if_pos hn]
      by_cases hf : s.root_far Real.sqrt ray < 0
      · rw [if_pos hf]
        have hno : ¬ ∃ t : ℝ, 0 ≤ t ∧ s.on_surface ray t := by
          rintro ⟨t, h0, ht⟩
          rcases (hroot t).1 ht with h | h <;> linarith
        refine ⟨fun t => ⟨fun h => by simp at h, fun h => absurd ⟨t, h.1, h.2.1⟩ hno⟩, ?_⟩
        simp only [true_iff]
        exact hno
      · rw [if_neg hf]
        refine ⟨fun t => ?_, ?_⟩
        · rw [Option.some.injEq]
          constructor
          · intro h
            subst h
            refine ⟨not_lt.1 hf, (hroot _).2 (Or.inr rfl), fun u hu0 hu => ?_⟩
            rcases (hroot u).1 hu with h | h <;> linarith
          · rintro ⟨h0, ht, -⟩
            rcases (hroot t).1 ht with h | h
            · linarith
            · exact h.symm
        · simp only [false_iff, not_not, reduceCtorEq]
          exact ⟨_, not_lt.1 hf, (hroot _).2 (Or.inr rfl)⟩
    · rw [if_neg hn]
      refine ⟨fun t => ?_, ?_⟩
      · rw [Option.some.injEq]
        constructor
        · intro h
          subst h
          refine ⟨not_lt.1 hn, (hroot _).2 (Or.inl rfl), fun u hu0 hu => ?_⟩
          rcases (hroot u).1 hu with h | h <;> linarith
        · rintro ⟨h0, ht, hmin⟩
          rcases (hroot t).1 ht with h | h
          · exact h.symm
          · have := hmin _ (not_lt.1 hn) ((hroot _).2 (Or.inl rfl))
            linarith
      · simp only [false_iff, not_not, reduceCtorEq]
        exact ⟨_, not_lt.1 hn, (hroot _).2 (Or.inl rfl)⟩

/-- Witness of C1 on the red sphere of `main.cpp` and the ray down the z axis. -/
theorem intersect_nearest_crossing_witness :
    (axisRay : Ray ℝ).direction ≠ ⟨0, 0, 0⟩ ∧
    ((∀ t : ℝ, (redSphere 0).intersect Real.sqrt axisRay = some t ↔
      (0 ≤ t ∧ (redSphere 0).on_surface axisRay t ∧
        ∀ u : ℝ, 0 ≤ u → (redSphere 0).on_surface axisRay u → t ≤ u)) ∧
    ((redSphere 0).intersect Real.sqrt axisRay = none ↔
      ¬ ∃ t : ℝ, 0 ≤ t ∧ (redSphere 0).on_surface axisRay t)) :=
  ⟨by simp [axisRay], intersect_nearest_crossing (redSphere 0) axisRay (by simp [axisRay])⟩

/-- A ray with unit direction aimed at the centre of a sphere at distance
`d > radius` hits it at `d - radius`. -/
theorem intersect_toward (s : Sphere ℝ) (ray : Ray ℝ) (d : ℝ)
    (hu : ray.direction.dot ray.direction = 1) (hr : 0 < s.radius) (hd : s.radius < d)
    (hc : s.center = ray.origin + ray.direction * d) :
    s.intersect Real.sqrt ray = some (d - s.radius) := by
  have h1 : ray.direction.x * ray.direction.x + ray.direction.y * ray.direction.y
      + ray.direction.z * ray.direction.z = 1 := hu
  have hs : Real.sqrt (4 * (s.radius * s.radius)) = 2 * s.radius := by
    rw [show 4 * (s.radius * s.radius) = (2 * s.radius) * (2 * s.radius) by ring]
    exact Real.sqrt_mul_self (by linarith)
  have ea : Sphere.coeff_a ray = 1 := hu
  have eb : s.coeff_b ray = -(2 * d) := by
    simp only [Sphere.coeff_b, hc, Vec3.dot, Vec3.add_def, Vec3.sub_def, Vec3.smul_def]
    linear_combination (-2 * d) * h1
  have ec : s.coeff_c ray = d * d - s.radius * s.radius := by
    simp only [Sphere.coeff_c, hc, Vec3.dot, Vec3.add_def, Vec3.sub_def, Vec3.smul_def]
    linear_combination (d * d) * h1
  have ed : s.discriminant ray = 4 * (s.radius * s.radius) := by
    unfold Sphere.discriminant
    rw [ea, eb, ec]; ring
  have en : s.root_near Real.sqrt ray = d - s.radius := by
    unfold Sphere.root_near
    rw [ed, hs, ea, eb]; ring
  rw [intersect_unfold, ed, en, if_neg (by nlinarith), if_neg (by linarith)]

/-- A ray with unit direction aimed away from the centre of a sphere at
distance `d > radius` misses it. -/
theorem intersect_away (s : Sphere ℝ) (ray : Ray ℝ) (d : ℝ)
    (hu : ray.direction.dot ray.direction = 1) (hr : 0 < s.radius) (hd : s.radius < d)
    (hc : s.center = ray.origin + ray.direction * (-d)) :
    s.intersect Real.sqrt ray = none := by
  have h1 : ray.direction.x * ray.direction.x + ray.direction.y * ray.direction.y
      + ray.direction.z * ray.direction.z = 1 := hu
  have hs : Real.sqrt (4 * (s.radius * s.radius)) = 2 * s.radius := by
    rw [show 4 * (s.radius * s.radius) = (2 * s.radius) * (2 * s.radius) by ring]
    exact Real.sqrt_mul_self (by linarith)
  have ea : Sphere.coeff_a ray = 1 := hu
  have eb : s.coeff_b ray = 2 * d := by
    simp only [Sphere.coeff_b, hc, Vec3.dot, Vec3.add_def, Vec3.sub_def, Vec3.smul_def]
    linear_combination (2 * d) * h1
  have ec : s.coeff_c ray = d * d - s.radius * s.radius := by
    simp only [Sphere.coeff_c, hc, Vec3.dot, Vec3.add_def, Vec3.sub_def, Vec3.smul_def]
    linear_combination (d * d) * h1
  have ed : s.discriminant ray = 4 * (s.radius * s.radius) := by
    unfold Sphere.discriminant
    rw [ea, eb, ec]; ring
  have en : s.root_near Real.sqrt ray = -(d + s.radius) := by
    unfold Sphere.root_near
    rw [ed, hs, ea, eb]; ring
  have ef : s.root_far Real.sqrt ray = s.radius - d := by
    unfold Sphere.root_far
    rw [ed, hs, ea, eb]; ring
  rw [intersect_unfold, ed, en, ef, if_neg (by nlinarith), if_pos (by linarith),
    if_pos (by linarith)]

/-- C3, amended. Over the reals, with the sphere of radius `r > 0` centred at
`o + u * d` for a unit direction `u` and `d > r`, `Sphere::intersect` returns
`d - r` on the ray `(o, u)` aimed at the centre and `none` on the ray `(o, -u)`
aimed away. -/
theorem intersect_aimed (s : Sphere ℝ) (o u : Vec3 ℝ) (d : ℝ)
    (hu : u.length Real.sqrt = 1) (hr : 0 < s.radius) (hd : s.radius < d)
    (hc : s.center = o + u * d) :
    s.intersect Real.sqrt ⟨o, u⟩ = some (d - s.radius) ∧
      s.intersect Real.sqrt ⟨o, ⟨-u.x, -u.y, -u.z⟩⟩ = none := by
  have h1 : u.dot u = 1 := Vec3.dot_self_of_length_one u hu
  refine ⟨intersect_toward s ⟨o, u⟩ d h1 hr hd hc, intersect_away s _ d ?_ hr hd ?_⟩
  · simp only [Vec3.dot] at h1 ⊢
    linarith
  · rw [hc]
    simp only [Vec3.add_def, Vec3.smul_def, neg_mul_neg]

/-- Witness of C3, amended: the red sphere of `main.cpp` seen from `(0,0,0)`, at
distance 5 down the z axis. -/
theorem intersect_aimed_witness :
    (⟨0, 0, -1⟩ : Vec3 ℝ).length Real.sqrt = 1 ∧
    (0 : ℝ) < (redSphere (0 : ℝ)).radius ∧ (redSphere (0 : ℝ)).radius < 5 ∧
    (redSphere (0 : ℝ)).center = (⟨0, 0, 0⟩ : Vec3 ℝ) + (⟨0, 0, -1⟩ : Vec3 ℝ) * (5 : ℝ) ∧
    ((redSphere (0 : ℝ)).intersect Real.sqrt ⟨⟨0, 0, 0⟩, ⟨0, 0, -1⟩⟩
        = some (5 - (redSphere (0 : ℝ)).radius) ∧
      (redSphere (0 : ℝ)).intersect Real.sqrt
        ⟨⟨0, 0, 0⟩, ⟨-(⟨0, 0, -1⟩ : Vec3 ℝ).x, -(⟨0, 0, -1⟩ : Vec3 ℝ).y,
          -(⟨0, 0, -1⟩ : Vec3 ℝ).z⟩⟩ = none) :=
  ⟨by simp [Vec3.length, Vec3.dot],
   by simp [redSphere],
   by simp [redSphere],
   by simp [redSphere, Vec3.add_def, Vec3.smul_def],
   intersect_aimed (redSphere 0) ⟨0, 0, 0⟩ ⟨0, 0, -1⟩ 5
     (by simp [Vec3.length, Vec3.dot]) (by simp [redSphere])
     (by simp [redSphere]) (by simp [redSphere, Vec3.add_def, Vec3.smul_def])⟩

end Intersect

/-! ## Properties of `Scene::trace_ray`: control flow -/

section Control

/-- Every scene built through the class interface has the ambient term of the
constructor. -/
theorem Scene.Built.ambient_light_eq {sc : Scene ℝ} (h : sc.Built) :
    sc.ambient_light = 1 / 5 := by
  induction h with
  | init => rfl
  | add_sphere sc sphere _ ih => exact ih
  | add_light sc light _ ih => exact ih

theorem closest_hit_none_of_all_none (spheres : List (Sphere ℝ)) (ray : Ray ℝ)
    (h : ∀ s ∈ spheres, s.intersect Real.sqrt ray = none) :
    closest_hit Real.sqrt spheres ray = none := by
  unfold closest_hit
  induction spheres with
  | nil => rfl
  | cons s rest ih =>
    rw [List.foldl_cons]
    have hs : closest_step Real.sqrt ray none s = none := by
      simp only [closest_step, h s (List.mem_cons_self _ _)]
    rw [hs]
    exact ih (fun s' hs' => h s' (List.mem_cons_of_mem _ hs'))

/-- C4. A ray on which `Sphere::intersect` returns `none` for every sphere of
the scene is traced to the colour `(0,0,0)`, at every depth. -/
theorem trace_ray_no_hit (sc : Scene ℝ) (ray : Ray ℝ) (depth : Int)
    (h : ∀ s ∈ sc.spheres, s.intersect Real.sqrt ray = none) :
    sc.trace_ray Real.sqrt ray depth = ⟨0, 0, 0⟩ := by
  rw [Scene.trace_ray, closest_hit_none_of_all_none sc.spheres ray h]
  split_ifs <;> rfl

/-- Witness of C4: the red sphere lies behind the ray going up the z axis. -/
theorem trace_ray_no_hit_witness :
    (∀ s ∈ (matteScene : Scene ℝ).spheres, s.intersect Real.sqrt (upRay 0) = none) ∧
      (matteScene : Scene ℝ).trace_ray Real.sqrt (upRay 0) 0 = ⟨0, 0, 0⟩ :=
  have h : ∀ s ∈ (matteScene : Scene ℝ).spheres, s.intersect Real.sqrt (upRay 0) = none := by
    intro s hs
    have e : s = redSphere 0 := by
      simpa [matteScene, Scene.init, Scene.add_sphere] using hs
    rw [e]
    exact intersect_away (redSphere 0) (upRay 0) 5 (by simp [upRay, Vec3.dot])
      (by simp [redSphere]) (by simp [redSphere])
      (by simp [redSphere, upRay, Vec3.add_def, Vec3.smul_def])
  ⟨h, trace_ray_no_hit matteScene (upRay 0) 0 h⟩

/-- C5. At a depth above 5, `Scene::trace_ray` returns `(0,0,0)` at once: the
instrumented run, on any non-empty stack, makes no intersection test and no
recursive call. -/
theorem trace_ray_depth_guard (sc : Scene ℝ) (ray : Ray ℝ) (depth : Int) (h : depth > 5) :
    sc.trace_ray Real.sqrt ray depth = ⟨0, 0, 0⟩ ∧
      ∀ fuel : Nat,
        sc.trace_ray_fuel Real.sqrt (fuel + 1) ray depth = some ⟨⟨0, 0, 0⟩, 0, 0⟩ := by
  constructor
  · rw [Scene.trace_ray, if_pos h]
  · intro fuel
    rw [Scene.trace_ray_fuel, if_pos h]

/-- Witness of C5: the two mirrors at depth 6. -/
theorem trace_ray_depth_guard_witness :
    (6 : Int) > 5 ∧
    ((mirrorScene : Scene ℝ).trace_ray Real.sqrt axisRay 6 = ⟨0, 0, 0⟩ ∧
      ∀ fuel : Nat, (mirrorScene : Scene ℝ).trace_ray_fuel Real.sqrt (fuel + 1) axisRay 6
        = some ⟨⟨0, 0, 0⟩, 0, 0⟩) :=
  ⟨by decide, trace_ray_depth_guard mirrorScene axisRay 6 (by decide)⟩

/-- A stack of `6 - depth + 1` frames is enough: the instrumented run returns the
colour of `trace_ray` after at most `6 - depth` recursive calls. -/
theorem trace_ray_fuel_spec (sc : Scene ℝ) :
    ∀ (n : Nat) (ray : Ray ℝ) (depth : Int), (6 - depth).toNat ≤ n →
      ∃ run, sc.trace_ray_fuel Real.sqrt (n + 1) ray depth = some run ∧
        run.color = sc.trace_ray Real.sqrt ray depth ∧ run.calls ≤ (6 - depth).toNat := by
  intro n
  induction n with
  | zero =>
    intro ray depth hn
    have hd : depth > 5 := by omega
    exact ⟨⟨⟨0, 0, 0⟩, 0, 0⟩, by rw [Scene.trace_ray_fuel, if_pos hd],
      by rw [Scene.trace_ray, if_pos hd], Nat.zero_le _⟩
  | succ m ih =>
    intro ray depth hn
    rw [Scene.trace_ray_fuel, Scene.trace_ray]
    by_cases hd : depth > 5
    · rw [if_pos hd, if_pos hd]
      exact ⟨_, rfl, rfl, Nat.zero_le _⟩
    · rw [if_neg hd, if_neg hd]
      cases hc : closest_hit Real.sqrt sc.spheres ray with
      | none => exact ⟨_, rfl, rfl, Nat.zero_le _⟩
      | some hit =>
        obtain ⟨t, sp⟩ := hit
        dsimp only
        cases hr : reflect_ray Real.sqrt ray (ray.at t)
            ((ray.at t - sp.center).normalize Real.sqrt) sp.specular with
        | none => exact ⟨_, rfl, rfl, Nat.zero_le _⟩
        | some rr =>
          dsimp only
          obtain ⟨sub, hsub, hcol, hcalls⟩ := ih rr (depth + 1) (by omega)
          rw [hsub]
          refine ⟨_, rfl, ?_, ?_⟩
          · dsimp only
            rw [hcol]
          · dsimp only
            omega

/-- A hit whose reflection is traced: the run is the run of the recursive call
at `depth + 1`, blended, with one more recursive call. -/
theorem trace_ray_fuel_reflect (sc : Scene ℝ) (n : Nat) (ray : Ray ℝ) (depth : Int) (t : ℝ)
    (sp : Sphere ℝ) (rr : Ray ℝ) (hd : depth ≤ 5)
    (hc : closest_hit Real.sqrt sc.spheres ray = some (t, sp))
    (hr : reflect_ray Real.sqrt ray (ray.at t) ((ray.at t - sp.center).normalize Real.sqrt)
      sp.specular = some rr) :
    sc.trace_ray_fuel Real.sqrt (n + 1) ray depth
      = (sc.trace_ray_fuel Real.sqrt n rr (depth + 1)).map (fun sub =>
          ⟨blend (shade sp.color (lighting Real.sqrt sc ray (ray.at t)
              ((ray.at t - sp.center).normalize Real.sqrt) sp.specular)) sub.color sp.specular,
            sub.calls + 1, sub.tests + sc.spheres.length⟩) := by
  rw [Scene.trace_ray_fuel, if_neg (not_lt.2 hd), hc]
  dsimp only
  rw [hr]
  dsimp only
  cases sc.trace_ray_fuel Real.sqrt n rr (depth + 1) <;> rfl

/-! ### The two facing mirrors -/

theorem mirror_down_hit (z : ℝ) (h1 : -4 < z) (h2 : z < 4) :
    closest_hit Real.sqrt (mirrorScene : Scene ℝ).spheres (downRay z)
      = some (z + 4, redSphere 1) := by
  have hA : (redSphere (1 : ℝ)).intersect Real.sqrt (downRay z) = some (z + 4) := by
    have := intersect_toward (redSphere (1 : ℝ)) (downRay z) (z + 5)
      (by simp [downRay, Vec3.dot]) (by simp [redSphere]) (by simp [redSphere]; linarith)
      (by simp [redSphere, downRay, Vec3.add_def, Vec3.smul_def])
    rw [this]
    simp [redSphere]; ring
  have hB : (facingSphere (1 : ℝ)).intersect Real.sqrt (downRay z) = none :=
    intersect_away (facingSphere (1 : ℝ)) (downRay z) (5 - z)
      (by simp [downRay, Vec3.dot]) (by simp [facingSphere]) (by simp [facingSphere]; linarith)
      (by simp [facingSphere, downRay, Vec3.add_def, Vec3.smul_def])
  simp [mirrorScene, Scene.init, Scene.add_sphere, closest_hit, closest_step, hA, hB]

theorem mirror_up_hit (z : ℝ) (h1 : -4 < z) (h2 : z < 4) :
    closest_hit Real.sqrt (mirrorScene : Scene ℝ).spheres (upRay z)
      = some (4 - z, facingSphere 1) := by
  have hA : (redSphere (1 : ℝ)).intersect Real.sqrt (upRay z) = none :=
    intersect_away (redSphere (1 : ℝ)) (upRay z) (z + 5)
      (by simp [upRay, Vec3.dot]) (by simp [redSphere]) (by simp [redSphere]; linarith)
      (by simp [redSphere, upRay, Vec3.add_def, Vec3.smul_def])
  have hB : (facingSphere (1 : ℝ)).intersect Real.sqrt (upRay z) = some (4 - z) := by
    have := intersect_toward (facingSphere (1 : ℝ)) (upRay z) (5 - z)
      (by simp [upRay, Vec3.dot]) (by simp [facingSphere]) (by simp [facingSphere]; linarith)
      (by simp [facingSphere, upRay, Vec3.add_def, Vec3.smul_def])
    rw [this]
    simp [facingSphere]; ring
  simp [mirrorScene, Scene.init, Scene.add_sphere, closest_hit, closest_step, hA, hB]

theorem mirror_down_reflect (z : ℝ) :
    reflect_ray Real.sqrt (downRay z) ((downRay z).at (z + 4))
      (((downRay z).at (z + 4) - (redSphere (1 : ℝ)).center).normalize Real.sqrt)
      (redSphere (1 : ℝ)).specular = some (upRay (-4 + 1 / 10000)) := by
  have hp : (downRay z).at (z + 4) = ⟨0, 0, -4⟩ := by
    simp [downRay, Ray.at, Vec3.add_def, Vec3.smul_def]
  have hn : ((⟨0, 0, -4⟩ : Vec3 ℝ) - (redSphere (1 : ℝ)).center).normalize Real.sqrt
      = ⟨0, 0, 1⟩ := by
    simp [redSphere, Vec3.normalize, Vec3.length, Vec3.dot, Vec3.sub_def, Vec3.smul_def]
    norm_num
  rw [hp, hn]
  simp [reflect_ray, redSphere, downRay, upRay, Vec3.length, Vec3.dot, Vec3.sub_def,
    Vec3.smul_def, Vec3.add_def]
  norm_num

theorem mirror_up_reflect (z : ℝ) :
    reflect_ray Real.sqrt (upRay z) ((upRay z).at (4 - z))
      (((upRay z).at (4 - z) - (facingSphere (1 : ℝ)).center).normalize Real.sqrt)
      (facingSphere (1 : ℝ)).specular = some (downRay (4 - 1 / 10000)) := by
  have hp : (upRay z).at (4 - z) = ⟨0, 0, 4⟩ := by
    simp [upRay, Ray.at, Vec3.add_def, Vec3.smul_def]
  have hn : ((⟨0, 0, 4⟩ : Vec3 ℝ) - (facingSphere (1 : ℝ)).center).normalize Real.sqrt
      = ⟨0, 0, -1⟩ := by
    simp [facingSphere, Vec3.normalize, Vec3.length, Vec3.dot, Vec3.sub_def, Vec3.smul_def]
    norm_num
  rw [hp, hn]
  simp [reflect_ray, facingSphere, downRay, upRay, Vec3.length, Vec3.dot, Vec3.sub_def,
    Vec3.smul_def, Vec3.add_def]
  norm_num

/-- Between the two mirrors a ray along the axis is reflected at every depth up
to 5, so a run started at `depth` makes exactly `6 - depth` recursive calls. -/
theorem mirror_calls (n : Nat) :
    ∀ (depth : Int) (z : ℝ), -4 < z → z < 4 → depth ≤ 6 → (6 - depth).toNat ≤ n →
      (∃ run, (mirrorScene : Scene ℝ).trace_ray_fuel Real.sqrt (n + 1) (downRay z) depth
          = some run ∧ run.calls = (6 - depth).toNat) ∧
      (∃ run, (mirrorScene : Scene ℝ).trace_ray_fuel Real.sqrt (n + 1) (upRay z) depth
          = some run ∧ run.calls = (6 - depth).toNat) := by
  induction n with
  | zero =>
    intro depth z _ _ h6 hn
    have hd : depth > 5 := by omega
    have e : (6 - depth).toNat = 0 := by omega
    rw [e]
    constructor <;> exact ⟨⟨⟨0, 0, 0⟩, 0, 0⟩, by rw [Scene.trace_ray_fuel, if_pos hd], rfl⟩
  | succ m ih =>
    intro depth z h1 h2 h6 hn
    by_cases hd : depth > 5
    · have e : (6 - depth).toNat = 0 := by omega
      rw [e]
      constructor <;> exact ⟨⟨⟨0, 0, 0⟩, 0, 0⟩, by rw [Scene.trace_ray_fuel, if_pos hd], rfl⟩
    · have hd' : depth ≤ 5 := not_lt.1 hd
      have e : (6 - depth).toNat = (6 - (depth + 1)).toNat + 1 := by omega
      constructor
      · obtain ⟨sub, hsub, hcalls⟩ :=
          (ih (depth + 1) (-4 + 1 / 10000) (by norm_num) (by norm_num) (by omega) (by omega)).2
        rw [trace_ray_fuel_reflect _ _ _ _ _ _ _ hd' (mirror_down_hit z h1 h2)
          (mirror_down_reflect z), hsub]
        exact ⟨_, rfl, by rw [e, ← hcalls]⟩
      · obtain ⟨sub, hsub, hcalls⟩ :=
          (ih (depth + 1) (4 - 1 / 10000) (by norm_num) (by norm_num) (by omega) (by omega)).1
        rw [trace_ray_fuel_reflect _ _ _ _ _ _ _ hd' (mirror_up_hit z h1 h2)
          (mirror_up_reflect z), hsub]
        exact ⟨_, rfl, by rw [e, ← hcalls]⟩

/-- C6, as stated, fails: between two facing spheres with specular 1 the call
at depth 0 makes 6 recursive calls (depths 1 to 6), not at most 5. -/
theorem trace_ray_mirrors_six_calls :
    ∃ run, (mirrorScene : Scene ℝ).trace_ray_fuel Real.sqrt 7 axisRay 0 = some run ∧
      run.calls = 6 ∧ ¬ run.calls ≤ 5 := by
  obtain ⟨run, hrun, hcalls⟩ := (mirror_calls 6 0 0 (by norm_num) (by norm_num)
    (by norm_num) (by norm_num)).1
  have h6 : run.calls = 6 := by rw [hcalls]; rfl
  exact ⟨run, hrun, h6, by omega⟩

/-- C6, amended. For every scene and ray the call of `Scene::trace_ray` at
depth 0 returns, on a stack of 7 frames, the colour of `trace_ray` after at most
6 recursive calls. -/
theorem trace_ray_calls_le_six (sc : Scene ℝ) (ray : Ray ℝ) :
    ∃ run, sc.trace_ray_fuel Real.sqrt 7 ray 0 = some run ∧
      run.color = sc.trace_ray Real.sqrt ray 0 ∧ run.calls ≤ 6 :=
  trace_ray_fuel_spec sc 6 ray 0 (by decide)

/-- C7. `Scene::trace_ray` returns a colour for every scene, ray and integer
depth, negative ones included: a stack of `(6 - depth) + 1` frames suffices, the
run returns the colour of `trace_ray` and makes at most `6 - depth` recursive
calls, each at the depth of its caller plus one. -/
theorem trace_ray_total (sc : Scene ℝ) (ray : Ray ℝ) (depth : Int) :
    ∃ run, sc.trace_ray_fuel Real.sqrt ((6 - depth).toNat + 1) ray depth = some run ∧
      run.color = sc.trace_ray Real.sqrt ray depth ∧ run.calls ≤ (6 - depth).toNat :=
  trace_ray_fuel_spec sc (6 - depth).toNat ray depth le_rfl

end Control

/-! ## Properties of `Scene::trace_ray`: lighting and shading -/

section Shading

/-- Inside the `int` range the conversion of a non-negative value is its
floor. -/
theorem truncToInt_of_nonneg (x : ℝ) (h : 0 ≤ x) (hx : x < 2147483648) :
    truncToInt x = Int.floor x := by
  have h0 : 0 ≤ Int.floor x := Int.floor_nonneg.2 h
  have h1 : Int.floor x < 2147483648 := Int.floor_lt.2 (by exact_mod_cast hx)
  simp only [truncToInt, if_pos h]
  rw [if_pos ⟨by omega, by omega⟩]

theorem truncToInt_nonneg (x : ℝ) (h : 0 ≤ x) (hx : x < 2147483648) :
    0 ≤ truncToInt x := by
  rw [truncToInt_of_nonneg x h hx]
  exact Int.floor_nonneg.2 h

/-- At `2^31` and above the conversion leaves the `int` range. -/
theorem truncToInt_overflow (x : ℝ) (h : 2147483648 ≤ x) :
    truncToInt x = -2147483648 := by
  have h0 : (0 : ℝ) ≤ x := le_trans (by norm_num) h
  have h1 : (2147483648 : Int) ≤ Int.floor x := Int.le_floor.2 (by exact_mod_cast h)
  simp only [truncToInt, if_pos h0]
  rw [if_neg (by omega)]

theorem toUChar_of_range (i : Int) (h0 : 0 ≤ i) (h1 : i ≤ 255) : (toUChar i : Int) = i := by
  unfold toUChar
  omega

theorem shade_channel_le (base : Nat) (I : ℝ) : shade_channel base I ≤ 255 :=
  min_le_left _ _

theorem shade_channel_nonneg (base : Nat) (I : ℝ) (h : 0 ≤ I)
    (hx : (base : ℝ) * I < 2147483648) : 0 ≤ shade_channel base I :=
  le_min (by norm_num) (truncToInt_nonneg _ (mul_nonneg (Nat.cast_nonneg _) h) hx)

/-- With a non-negative intensity and a product inside the `int` range the
integer handed to the `Color` constructor is in `0..255`, so its conversion to
`unsigned char` keeps its value. -/
theorem shade_channel_cast (base : Nat) (I : ℝ) (h : 0 ≤ I)
    (hx : (base : ℝ) * I < 2147483648) :
    (toUChar (shade_channel base I) : Int) = min 255 (truncToInt ((base : ℝ) * I)) :=
  toUChar_of_range _ (shade_channel_nonneg base I h hx) (shade_channel_le base I)

/-- Once the product reaches `2^31` the conversion to `int` leaves the range
before the clamp `std::min(255, .)` is applied, and the channel is 0. -/
theorem shade_channel_overflow (base : Nat) (I : ℝ) (h : 2147483648 ≤ (base : ℝ) * I) :
    toUChar (shade_channel base I) = 0 := by
  have : shade_channel base I = -2147483648 := by
    unfold shade_channel
    rw [truncToInt_overflow _ h]
    rfl
  rw [this]
  rfl

theorem shade_channel_eq (c : Color) (I : ℝ) (i : Fin 3) :
    (shade c I).channel i = toUChar (shade_channel (c.channel i) I) := by
  fin_cases i <;> rfl

/-- One light never lowers the intensity: the diffuse and the specular term are
both non-negative. -/
theorem light_step_ge (ray : Ray ℝ) (hit_point normal : Vec3 ℝ) (sphere_specular : ℝ)
    (intensity : ℝ) (light : Vec3 ℝ) :
    intensity ≤ light_step Real.sqrt ray hit_point normal sphere_specular intensity light := by
  unfold light_step
  dsimp only
  split_ifs with h1 h2 h3 h4
  · exact le_rfl
  · exact le_add_of_nonneg_right (le_max_left _ _)
  · exact le_add_of_nonneg_right (le_max_left _ _)
  · exact le_trans (le_add_of_nonneg_right (le_max_left _ _))
      (le_add_of_nonneg_right (mul_nonneg (pow_nonneg (le_max_left _ _) _) h2.le))
  · exact le_add_of_nonneg_right (le_max_left _ _)

theorem foldl_light_step_ge (ray : Ray ℝ) (hit_point normal : Vec3 ℝ) (sphere_specular : ℝ)
    (lights : List (Vec3 ℝ)) :
    ∀ intensity : ℝ, intensity ≤
      lights.foldl (light_step Real.sqrt ray hit_point normal sphere_specular) intensity := by
  induction lights with
  | nil => intro intensity; exact le_rfl
  | cons light rest ih =>
    intro intensity
    rw [List.foldl_cons]
    exact le_trans (light_step_ge ray hit_point normal sphere_specular intensity light) (ih _)

theorem lighting_ge_ambient (sc : Scene ℝ) (ray : Ray ℝ) (hit_point normal : Vec3 ℝ)
    (sphere_specular : ℝ) :
    sc.ambient_light ≤ lighting Real.sqrt sc ray hit_point normal sphere_specular :=
  foldl_light_step_ge ray hit_point normal sphere_specular sc.lights sc.ambient_light

theorem foldl_light_step_matte (ray : Ray ℝ) (hit_point normal : Vec3 ℝ)
    (sphere_specular : ℝ) (hs : sphere_specular = 0) (lights : List (Vec3 ℝ)) :
    ∀ intensity : ℝ,
      lights.foldl (light_step Real.sqrt ray hit_point normal sphere_specular) intensity
        = intensity +
          ((lights.filter (fun light =>
              ¬ (light - hit_point).length Real.sqrt < 1 / 1000000)).map
            (fun light => max 0 (normal.dot
              ((light - hit_point) * (1 / (light - hit_point).length Real.sqrt))))).sum := by
  subst hs
  induction lights with
  | nil => intro intensity; simp
  | cons light rest ih =>
    intro intensity
    rw [List.foldl_cons, ih]
    by_cases h : (light - hit_point).length Real.sqrt < 1 / 1000000
    · have e : light_step Real.sqrt ray hit_point normal 0 intensity light = intensity := by
        unfold light_step
        dsimp only
        rw [if_pos h]
      rw [e, List.filter_cons_of_neg (by simpa using h)]
    · have e : light_step Real.sqrt ray hit_point normal 0 intensity light
          = intensity + max 0 (normal.dot
              ((light - hit_point) * (1 / (light - hit_point).length Real.sqrt))) := by
        unfold light_step
        dsimp only
        rw [if_neg h, if_neg (lt_irrefl _)]
      rw [e, List.filter_cons_of_pos (by simpa using h), List.map_cons, List.sum_cons]
      ring

/-- On a sphere with specular 0 the lighting loop computes the diffuse
intensity. -/
theorem lighting_matte (sc : Scene ℝ) (ray : Ray ℝ) (hit_point normal : Vec3 ℝ)
    (sphere_specular : ℝ) (hs : sphere_specular = 0) :
    lighting Real.sqrt sc ray hit_point normal sphere_specular
      = diffuse_intensity Real.sqrt sc hit_point normal :=
  foldl_light_step_matte ray hit_point normal sphere_specular hs sc.lights sc.ambient_light

theorem reflect_ray_matte (ray : Ray ℝ) (hit_point normal : Vec3 ℝ) (sphere_specular : ℝ)
    (hs : sphere_specular = 0) :
    reflect_ray Real.sqrt ray hit_point normal sphere_specular = none := by
  simp [reflect_ray, hs]

theorem trace_ray_matte_eq (sc : Scene ℝ) (ray : Ray ℝ) (depth : Int) (t : ℝ) (sp : Sphere ℝ)
    (hd : depth ≤ 5) (hc : closest_hit Real.sqrt sc.spheres ray = some (t, sp))
    (hs : sp.specular = 0) :
    sc.trace_ray Real.sqrt ray depth
      = shade sp.color (diffuse_intensity Real.sqrt sc (ray.at t)
          ((ray.at t - sp.center).normalize Real.sqrt)) := by
  rw [Scene.trace_ray, if_neg (not_lt.2 hd), hc]
  dsimp only
  rw [reflect_ray_matte _ _ _ _ hs, lighting_matte _ _ _ _ _ hs]

theorem trace_ray_fuel_matte_eq (sc : Scene ℝ) (ray : Ray ℝ) (depth : Int) (t : ℝ)
    (sp : Sphere ℝ) (fuel : Nat)
    (hd : depth ≤ 5) (hc : closest_hit Real.sqrt sc.spheres ray = some (t, sp))
    (hs : sp.specular = 0) :
    sc.trace_ray_fuel Real.sqrt (fuel + 1) ray depth
      = some ⟨shade sp.color (diffuse_intensity Real.sqrt sc (ray.at t)
          ((ray.at t - sp.center).normalize Real.sqrt)), 0, sc.spheres.length⟩ := by
  rw [Scene.trace_ray_fuel, if_neg (not_lt.2 hd), hc]
  dsimp only
  rw [reflect_ray_matte _ _ _ _ hs, lighting_matte _ _ _ _ _ hs]

theorem diffuse_intensity_no_lights (sc : Scene ℝ) (hit_point normal : Vec3 ℝ)
    (hl : sc.lights = []) :
    diffuse_intensity Real.sqrt sc hit_point normal = sc.ambient_light := by
  simp [diffuse_intensity, hl]

/-- The ray down the z axis hits the red sphere of the matte scene at `t = 4`. -/
theorem matte_hit :
    closest_hit Real.sqrt (matteScene : Scene ℝ).spheres axisRay = some (4, redSphere 0) := by
  have hA : (redSphere (0 : ℝ)).intersect Real.sqrt axisRay = some 4 := by
    have := intersect_toward (redSphere (0 : ℝ)) axisRay 5
      (by simp [axisRay, Vec3.dot]) (by simp [redSphere]) (by simp [redSphere])
      (by simp [redSphere, axisRay, Vec3.add_def, Vec3.smul_def])
    rw [this]
    simp [redSphere]; norm_num
  simp [matteScene, Scene.init, Scene.add_sphere, closest_hit, closest_step, hA]

/-- The hit point of the ray down the z axis on the red sphere. -/
theorem axis_hit_point : (axisRay : Ray ℝ).at 4 = ⟨0, 0, -4⟩ := by
  simp [axisRay, Ray.at, Vec3.add_def, Vec3.smul_def]

/-- The normal at that hit point. -/
theorem axis_normal (specular : ℝ) :
    ((axisRay : Ray ℝ).at 4 - (redSphere specular).center).normalize Real.sqrt
      = ⟨0, 0, 1⟩ := by
  rw [axis_hit_point]
  simp [redSphere, Vec3.normalize, Vec3.length, Vec3.dot, Vec3.sub_def, Vec3.smul_def]
  norm_num

/-- At the hit point `(0,0,-4)` with normal `(0,0,1)` a light at `(0,0,0)` adds
the diffuse term 1 on a sphere with specular 0. -/
theorem flood_light_step (intensity : ℝ) :
    light_step Real.sqrt axisRay ⟨0, 0, -4⟩ ⟨0, 0, 1⟩ 0 intensity ⟨0, 0, 0⟩
      = intensity + 1 := by
  have h4 : Real.sqrt 16 = 4 := by
    rw [show (16 : ℝ) = 4 * 4 by norm_num]
    exact Real.sqrt_mul_self (by norm_num)
  have hl : ((⟨0, 0, 0⟩ : Vec3 ℝ) - ⟨0, 0, -4⟩).length Real.sqrt = 4 := by
    simp only [Vec3.length, Vec3.dot, Vec3.sub_def]
    rw [show ((0 : ℝ) - 0) * (0 - 0) + (0 - 0) * (0 - 0) + (0 - -4) * (0 - -4) = 16 by
      norm_num]
    exact h4
  unfold light_step
  dsimp only
  rw [hl, if_neg (by norm_num), if_neg (lt_irrefl _)]
  simp only [Vec3.dot, Vec3.sub_def, Vec3.smul_def]
  norm_num

theorem flood_foldl (n : Nat) :
    ∀ intensity : ℝ,
      (List.replicate n (⟨0, 0, 0⟩ : Vec3 ℝ)).foldl
          (light_step Real.sqrt axisRay ⟨0, 0, -4⟩ ⟨0, 0, 1⟩ 0) intensity
        = intensity + n := by
  induction n with
  | zero => intro intensity; simp
  | succ k ih =>
    intro intensity
    rw [List.replicate_succ, List.foldl_cons, flood_light_step, ih]
    push_cast
    ring

/-- With 9000000 lights in the direction of the normal the intensity at the hit
is `0.2 + 9000000`. -/
theorem flood_lighting :
    lighting Real.sqrt (floodScene : Scene ℝ) axisRay ⟨0, 0, -4⟩ ⟨0, 0, 1⟩ 0
      = 1 / 5 + 9000000 := by
  simp only [lighting, floodScene, flood_foldl]
  norm_num

theorem flood_shade :
    shade (⟨255, 0, 0⟩ : Color) ((1 : ℝ) / 5 + 9000000) = ⟨0, 0, 0⟩ := by
  have hr : toUChar (shade_channel 255 ((1 : ℝ) / 5 + 9000000)) = 0 :=
    shade_channel_overflow 255 _ (by norm_num)
  have h0 : toUChar (shade_channel 0 ((1 : ℝ) / 5 + 9000000)) = 0 := by
    have e : truncToInt (((0 : Nat) : ℝ) * ((1 : ℝ) / 5 + 9000000)) = 0 := by
      rw [truncToInt_of_nonneg _ (by norm_num) (by norm_num),
        show ((0 : Nat) : ℝ) * ((1 : ℝ) / 5 + 9000000) = ((0 : ℤ) : ℝ) by norm_num,
        Int.floor_intCast]
    simp only [shade_channel, e]
    rfl
  simp only [shade, hr, h0]

/-- Within the `int` range the non-reflective path is as the specification says:
when the closest hit at a depth of at most 5 is a sphere with specular 0 and
every `base_channel * intensity` is below `2^31`, `Scene::trace_ray` makes no
recursive call and each channel is `min(255, floor(base_channel * intensity))`,
with the diffuse intensity. -/
theorem trace_ray_matte_in_range (sc : Scene ℝ) (ray : Ray ℝ) (depth : Int) (t : ℝ)
    (sp : Sphere ℝ) (hd : depth ≤ 5) (hamb : 0 ≤ sc.ambient_light)
    (hc : closest_hit Real.sqrt sc.spheres ray = some (t, sp)) (hs : sp.specular = 0)
    (hfit : ∀ i : Fin 3, (sp.color.channel i : ℝ)
      * diffuse_intensity Real.sqrt sc (ray.at t)
          ((ray.at t - sp.center).normalize Real.sqrt) < 2147483648) :
    (∀ i : Fin 3, (((sc.trace_ray Real.sqrt ray depth).channel i : Nat) : Int)
      = min 255 (Int.floor ((sp.color.channel i : ℝ)
          * diffuse_intensity Real.sqrt sc (ray.at t)
              ((ray.at t - sp.center).normalize Real.sqrt)))) ∧
    ∀ fuel : Nat, ∃ run, sc.trace_ray_fuel Real.sqrt (fuel + 1) ray depth = some run ∧
      run.color = sc.trace_ray Real.sqrt ray depth ∧ run.calls = 0 := by
  have hI : 0 ≤ diffuse_intensity Real.sqrt sc (ray.at t)
      ((ray.at t - sp.center).normalize Real.sqrt) := by
    rw [← lighting_matte sc ray _ _ sp.specular hs]
    exact le_trans hamb (lighting_ge_ambient sc ray _ _ _)
  constructor
  · intro i
    rw [trace_ray_matte_eq sc ray depth t sp hd hc hs, shade_channel_eq,
      shade_channel_cast _ _ hI (hfit i),
      truncToInt_of_nonneg _ (mul_nonneg (Nat.cast_nonneg _) hI) (hfit i)]
  · intro fuel
    exact ⟨_, trace_ray_fuel_matte_eq sc ray depth t sp fuel hd hc hs,
      (trace_ray_matte_eq sc ray depth t sp hd hc hs).symm, rfl⟩

/-- C8, evaluated where the code departs from it.  In the matte scene with
9000000 lights at `(0,0,0)` the closest hit of the ray down the z axis is the red
sphere with specular 0 and the diffuse intensity is `0.2 + 9000000`; the claim
gives the red channel `min(255, trunc(255 * intensity)) = 255`, while
`Scene::trace_ray`, which converts the product to `int` before clamping, returns
`(0,0,0)`.  No recursive call is made. -/
theorem trace_ray_matte_overflow :
    closest_hit Real.sqrt (floodScene : Scene ℝ).spheres axisRay = some (4, redSphere 0) ∧
    (redSphere (0 : ℝ)).specular = 0 ∧
    diffuse_intensity Real.sqrt (floodScene : Scene ℝ) ((axisRay : Ray ℝ).at 4)
      (((axisRay : Ray ℝ).at 4 - (redSphere (0 : ℝ)).center).normalize Real.sqrt)
      = 1 / 5 + 9000000 ∧
    min 255 (Int.floor ((255 : ℝ) * (1 / 5 + 9000000))) = 255 ∧
    (floodScene : Scene ℝ).trace_ray Real.sqrt axisRay 0 = ⟨0, 0, 0⟩ ∧
    (floodScene : Scene ℝ).trace_ray_fuel Real.sqrt 1 axisRay 0 = some ⟨⟨0, 0, 0⟩, 0, 1⟩ := by
  have hI : diffuse_intensity Real.sqrt (floodScene : Scene ℝ) ((axisRay : Ray ℝ).at 4)
      (((axisRay : Ray ℝ).at 4 - (redSphere (0 : ℝ)).center).normalize Real.sqrt)
      = 1 / 5 + 9000000 := by
    rw [← lighting_matte (floodScene : Scene ℝ) axisRay _ _ 0 rfl, axis_normal, axis_hit_point]
    exact flood_lighting
  refine ⟨matte_hit, rfl, hI, ?_, ?_, ?_⟩
  · have : (255 : Int) ≤ Int.floor ((255 : ℝ) * (1 / 5 + 9000000)) :=
      Int.le_floor.2 (by norm_num)
    exact min_eq_left this
  · rw [trace_ray_matte_eq floodScene axisRay 0 4 (redSphere 0) (by decide) matte_hit rfl, hI]
    exact flood_shade
  · rw [trace_ray_fuel_matte_eq floodScene axisRay 0 4 (redSphere 0) 0 (by decide) matte_hit
      rfl, hI]
    rw [show shade (redSphere (0 : ℝ)).color ((1 : ℝ) / 5 + 9000000) = ⟨0, 0, 0⟩ from
      flood_shade]
    rfl

/-- C9. In a scene without lights, when the closest hit at a depth of at most 5
is a sphere with specular 0, each channel returned by `Scene::trace_ray` is
`floor(base_channel * ambient_light)`; with the ambient term 0.2 of `Scene()` a
base channel of 255 gives 51.  The base channels are `unsigned char` values and
the ambient term lies in `[0, 1]` in every scene. -/
theorem trace_ray_ambient_floor (sc : Scene ℝ) (ray : Ray ℝ) (depth : Int) (t : ℝ)
    (sp : Sphere ℝ) (hd : depth ≤ 5) (hl : sc.lights = [])
    (hc : closest_hit Real.sqrt sc.spheres ray = some (t, sp)) (hs : sp.specular = 0)
    (h0 : 0 ≤ sc.ambient_light) (h1 : sc.ambient_light ≤ 1)
    (hcol : ∀ i : Fin 3, sp.color.channel i < 256) :
    (∀ i : Fin 3, (((sc.trace_ray Real.sqrt ray depth).channel i : Nat) : Int)
      = Int.floor ((sp.color.channel i : ℝ) * sc.ambient_light)) ∧
    (sc.ambient_light = 1 / 5 → ∀ i : Fin 3, sp.color.channel i = 255 →
      (sc.trace_ray Real.sqrt ray depth).channel i = 51) := by
  have key : ∀ i : Fin 3, (((sc.trace_ray Real.sqrt ray depth).channel i : Nat) : Int)
      = Int.floor ((sp.color.channel i : ℝ) * sc.ambient_light) := by
    intro i
    have hx : 0 ≤ (sp.color.channel i : ℝ) * sc.ambient_light :=
      mul_nonneg (Nat.cast_nonneg _) h0
    have hb : ((sp.color.channel i : ℝ)) ≤ 255 := by
      have := hcol i
      exact_mod_cast Nat.lt_succ_iff.1 this
    have hle : Int.floor ((sp.color.channel i : ℝ) * sc.ambient_light) ≤ 255 := by
      have h2 : (sp.color.channel i : ℝ) * sc.ambient_light ≤ 255 := by
        nlinarith [(Nat.cast_nonneg (sp.color.channel i) : (0 : ℝ) ≤ (sp.color.channel i : ℝ))]
      have := Int.floor_le_floor h2
      rwa [show (255 : ℝ) = ((255 : ℤ) : ℝ) by norm_num, Int.floor_intCast] at this
    have h2 : (sp.color.channel i : ℝ) * sc.ambient_light < 2147483648 := by
      nlinarith [(Nat.cast_nonneg (sp.color.channel i) : (0 : ℝ) ≤ (sp.color.channel i : ℝ))]
    rw [trace_ray_matte_eq sc ray depth t sp hd hc hs, shade_channel_eq,
      diffuse_intensity_no_lights sc _ _ hl, shade_channel_cast _ _ h0 h2,
      truncToInt_of_nonneg _ hx h2]
    exact min_eq_right hle
  refine ⟨key, fun ha i hi => ?_⟩
  have := key i
  rw [hi, ha] at this
  have e : Int.floor (((255 : ℕ) : ℝ) * (1 / 5)) = 51 := by
    rw [show ((255 : ℕ) : ℝ) * (1 / 5) = ((51 : ℤ) : ℝ) by norm_num, Int.floor_intCast]
  rw [e] at this
  exact_mod_cast this

/-- Witness of C9: the matte red sphere without lights renders as `(51,0,0)`. -/
theorem trace_ray_ambient_floor_witness :
    (0 : Int) ≤ 5 ∧ (matteScene : Scene ℝ).lights = [] ∧
    closest_hit Real.sqrt (matteScene : Scene ℝ).spheres axisRay = some (4, redSphere 0) ∧
    (redSphere (0 : ℝ)).specular = 0 ∧
    (0 : ℝ) ≤ (matteScene : Scene ℝ).ambient_light ∧
    (matteScene : Scene ℝ).ambient_light ≤ 1 ∧
    (∀ i : Fin 3, (redSphere (0 : ℝ)).color.channel i < 256) ∧
    ((∀ i : Fin 3, ((((matteScene : Scene ℝ).trace_ray Real.sqrt axisRay 0).channel i : Nat) : Int)
      = Int.floor (((redSphere (0 : ℝ)).color.channel i : ℝ)
          * (matteScene : Scene ℝ).ambient_light)) ∧
    ((matteScene : Scene ℝ).ambient_light = 1 / 5 →
      ∀ i : Fin 3, (redSphere (0 : ℝ)).color.channel i = 255 →
        ((matteScene : Scene ℝ).trace_ray Real.sqrt axisRay 0).channel i = 51)) :=
  ⟨by decide, rfl, matte_hit, rfl,
   by simp [matteScene, Scene.init, Scene.add_sphere],
   by simp [matteScene, Scene.init, Scene.add_sphere]; norm_num,
   by intro i; fin_cases i <;> simp [redSphere, Color.channel],
   trace_ray_ambient_floor matteScene axisRay 0 4 (redSphere 0) (by decide) rfl matte_hit rfl
     (by simp [matteScene, Scene.init, Scene.add_sphere])
     (by simp [matteScene, Scene.init, Scene.add_sphere]; norm_num)
     (by intro i; fin_cases i <;> simp [redSphere, Color.channel])⟩

/-- Within the `int` range the base shaded colour saturates: with a non-negative
ambient term and `base_channel * intensity` below `2^31`, the channel is
`min(255, floor(base_channel * intensity))`, at most 255, and 255 as soon as the
product reaches 255. -/
theorem shade_in_range (base : Nat) (I : ℝ) (h0 : 0 ≤ I)
    (hfit : (base : ℝ) * I < 2147483648) :
    (toUChar (shade_channel base I) : Int) = min 255 (Int.floor ((base : ℝ) * I)) ∧
    toUChar (shade_channel base I) ≤ 255 ∧
    (255 ≤ (base : ℝ) * I → toUChar (shade_channel base I) = 255) := by
  have hx : 0 ≤ (base : ℝ) * I := mul_nonneg (Nat.cast_nonneg _) h0
  have hcast : (toUChar (shade_channel base I) : Int) = min 255 (Int.floor ((base : ℝ) * I)) := by
    rw [shade_channel_cast base I h0 hfit, truncToInt_of_nonneg _ hx hfit]
  refine ⟨hcast, ?_, fun h => ?_⟩
  · have : (toUChar (shade_channel base I) : Int) ≤ 255 := by
      rw [hcast]
      exact min_le_left _ _
    exact_mod_cast this
  · have h1 : (255 : Int) ≤ Int.floor ((base : ℝ) * I) := Int.le_floor.2 (by exact_mod_cast h)
    have : (toUChar (shade_channel base I) : Int) = 255 := by
      rw [hcast]
      exact min_eq_left h1
    exact_mod_cast this

/-- C10, evaluated where the code departs from it.  At the hit of the matte scene
with 9000000 lights the accumulated intensity is `0.2 + 9000000`, not below the
ambient term; `255 * intensity` is far above 255, yet the red channel of the base
shaded colour is 0 and not 255: the product is converted to `int` before
`std::min(255, .)` is applied and it no longer fits. -/
theorem shade_overflow :
    (floodScene : Scene ℝ).ambient_light
      ≤ lighting Real.sqrt (floodScene : Scene ℝ) axisRay ⟨0, 0, -4⟩ ⟨0, 0, 1⟩ 0 ∧
    (255 : ℝ) ≤ ((255 : Nat) : ℝ)
      * lighting Real.sqrt (floodScene : Scene ℝ) axisRay ⟨0, 0, -4⟩ ⟨0, 0, 1⟩ 0 ∧
    (shade (⟨255, 0, 0⟩ : Color)
      (lighting Real.sqrt (floodScene : Scene ℝ) axisRay ⟨0, 0, -4⟩ ⟨0, 0, 1⟩ 0)).r = 0 ∧
    (shade (⟨255, 0, 0⟩ : Color)
      (lighting Real.sqrt (floodScene : Scene ℝ) axisRay ⟨0, 0, -4⟩ ⟨0, 0, 1⟩ 0)).r ≠ 255 := by
  refine ⟨lighting_ge_ambient _ _ _ _ _, ?_⟩
  rw [flood_lighting, flood_shade]
  exact ⟨by norm_num, rfl, by decide⟩

end Shading

/-! ## The end-to-end example -/

section Example

/-- In the example scene the light at `(5,5,-5)` lies behind the tangent plane
at the hit point `(0,0,-4)`: the diffuse term is 0 and the intensity is the
ambient term. -/
theorem example_intensity :
    diffuse_intensity Real.sqrt (exampleScene : Scene ℝ) ((axisRay : Ray ℝ).at 4)
      (((axisRay : Ray ℝ).at 4 - (redSphere (0 : ℝ)).center).normalize Real.sqrt) = 1 / 5 := by
  have hp : (axisRay : Ray ℝ).at 4 = ⟨0, 0, -4⟩ := by
    simp [axisRay, Ray.at, Vec3.add_def, Vec3.smul_def]
  have hn : ((⟨0, 0, -4⟩ : Vec3 ℝ) - (redSphere (0 : ℝ)).center).normalize Real.sqrt
      = ⟨0, 0, 1⟩ := by
    simp [redSphere, Vec3.normalize, Vec3.length, Vec3.dot, Vec3.sub_def, Vec3.smul_def]
    norm_num
  have hl : ((⟨5, 5, -5⟩ : Vec3 ℝ) - ⟨0, 0, -4⟩).length Real.sqrt = Real.sqrt 51 := by
    simp only [Vec3.length, Vec3.dot, Vec3.sub_def]
    norm_num
  have h51 : (1 : ℝ) ≤ Real.sqrt 51 := Real.one_le_sqrt.2 (by norm_num)
  rw [hp, hn]
  simp only [diffuse_intensity, exampleScene, Scene.add_light, Scene.add_sphere, Scene.init,
    List.nil_append]
  rw [List.filter_cons_of_pos (by rw [hl]; simp; linarith)]
  simp only [List.filter_nil, List.map_cons, List.map_nil, List.sum_cons, List.sum_nil, hl]
  have hneg : (⟨0, 0, 1⟩ : Vec3 ℝ).dot
      (((⟨5, 5, -5⟩ : Vec3 ℝ) - ⟨0, 0, -4⟩) * (1 / Real.sqrt 51)) ≤ 0 := by
    simp only [Vec3.dot, Vec3.sub_def, Vec3.smul_def]
    have : 0 < 1 / Real.sqrt 51 := by positivity
    nlinarith
  rw [max_eq_left hneg]
  norm_num

theorem example_colour :
    (exampleScene : Scene ℝ).trace_ray Real.sqrt axisRay 0 = ⟨51, 0, 0⟩ := by
  rw [trace_ray_matte_eq exampleScene axisRay 0 4 (redSphere 0) (by decide) matte_hit rfl,
    example_intensity]
  have e : truncToInt ((255 : ℝ) * (1 / 5)) = 51 := by
    rw [truncToInt_of_nonneg _ (by norm_num) (by norm_num),
      show (255 : ℝ) * (1 / 5) = ((51 : ℤ) : ℝ) by norm_num, Int.floor_intCast]
  have e0 : truncToInt ((0 : ℝ) * (1 / 5)) = 0 := by
    rw [truncToInt_of_nonneg _ (by norm_num) (by norm_num),
      show (0 : ℝ) * (1 / 5) = ((0 : ℤ) : ℝ) by norm_num, Int.floor_intCast]
  simp only [shade, shade_channel, redSphere, Nat.cast_ofNat, Nat.cast_zero, e, e0]
  rfl

/-- C11, as stated, fails: in the example scene the red channel returned for the
ray from `(0,0,0)` towards `(0,0,-1)` at depth 0 is 51, not above 51. -/
theorem example_red_not_above_51 :
    ((exampleScene : Scene ℝ).trace_ray Real.sqrt axisRay 0).r = 51 ∧
    ¬ (51 < ((exampleScene : Scene ℝ).trace_ray Real.sqrt axisRay 0).r ∧
        ((exampleScene : Scene ℝ).trace_ray Real.sqrt axisRay 0).g = 0 ∧
        ((exampleScene : Scene ℝ).trace_ray Real.sqrt axisRay 0).b = 0) := by
  rw [example_colour]
  exact ⟨rfl, fun h => absurd h.1 (lt_irrefl 51)⟩

/-- C11, amended. In the example scene the ray from `(0,0,0)` towards
`(0,0,-1)` at depth 0 is traced to `(51,0,0)`: the light adds nothing to the
ambient intensity 0.2 at the hit point, and `255 * 0.2 = 51`. -/
theorem example_red_is_51 :
    (exampleScene : Scene ℝ).trace_ray Real.sqrt axisRay 0 = ⟨51, 0, 0⟩ ∧
    diffuse_intensity Real.sqrt (exampleScene : Scene ℝ) ((axisRay : Ray ℝ).at 4)
      (((axisRay : Ray ℝ).at 4 - (redSphere (0 : ℝ)).center).normalize Real.sqrt)
      = (exampleScene : Scene ℝ).ambient_light :=
  ⟨example_colour, example_intensity⟩

end Example

/-! ## A light at the hit point -/

section DegenerateLight

theorem Vec3.sub_self_length (v : Vec3 ℝ) : (v - v).length Real.sqrt = 0 := by
  simp [Vec3.length, Vec3.dot, Vec3.sub_def]

/-- A light at the hit point leaves the loop body at the first `continue`. -/
theorem light_step_at_hit (ray : Ray ℝ) (hit_point normal : Vec3 ℝ) (sphere_specular : ℝ)
    (intensity : ℝ) :
    light_step Real.sqrt ray hit_point normal sphere_specular intensity hit_point
      = intensity := by
  unfold light_step
  dsimp only
  rw [if_pos (by rw [Vec3.sub_self_length]; norm_num)]

/-- C12. A light placed exactly at the hit point has distance 0 to it, below
the guard `1e-6`, so the loop body returns before any division and adds neither
term: the accumulated intensity, and with it the base shaded colour, is that of
the scene without this light. -/
theorem lighting_light_at_hit (sc : Scene ℝ) (ray : Ray ℝ) (hit_point normal : Vec3 ℝ)
    (sphere_specular : ℝ) (before after : List (Vec3 ℝ))
    (hl : sc.lights = before ++ hit_point :: after) :
    (hit_point - hit_point).length Real.sqrt < 1 / 1000000 ∧
    (∀ intensity : ℝ,
      light_step Real.sqrt ray hit_point normal sphere_specular intensity hit_point
        = intensity) ∧
    lighting Real.sqrt sc ray hit_point normal sphere_specular
      = lighting Real.sqrt { sc with lights := before ++ after } ray hit_point normal
          sphere_specular ∧
    ∀ base : Color,
      shade base (lighting Real.sqrt sc ray hit_point normal sphere_specular)
        = shade base (lighting Real.sqrt { sc with lights := before ++ after } ray hit_point
            normal sphere_specular) := by
  have e : lighting Real.sqrt sc ray hit_point normal sphere_specular
      = lighting Real.sqrt { sc with lights := before ++ after } ray hit_point normal
          sphere_specular := by
    simp only [lighting, hl, List.foldl_append, List.foldl_cons, light_step_at_hit]
  refine ⟨by rw [Vec3.sub_self_length]; norm_num, light_step_at_hit ray hit_point normal
    sphere_specular, e, fun base => by rw [e]⟩

/-- Witness of C12: the matte scene with a light at the hit point `(0,0,-4)` of
the ray down the z axis is lit as the matte scene without lights. -/
theorem lighting_light_at_hit_witness :
    (lightAtHitScene : Scene ℝ).lights = [] ++ (⟨0, 0, -4⟩ : Vec3 ℝ) :: [] ∧
    lighting Real.sqrt (lightAtHitScene : Scene ℝ) axisRay ⟨0, 0, -4⟩ ⟨0, 0, 1⟩ 0
      = lighting Real.sqrt { (lightAtHitScene : Scene ℝ) with lights := [] ++ [] } axisRay
          ⟨0, 0, -4⟩ ⟨0, 0, 1⟩ 0 :=
  ⟨rfl, (lighting_light_at_hit lightAtHitScene axisRay ⟨0, 0, -4⟩ ⟨0, 0, 1⟩ 0 [] [] rfl).2.2.1⟩

end DegenerateLight

/-! ## Construction of spheres and scenes -/

section Construction

/-- C13, as stated, fails: `Sphere::Sphere` and `Scene::add_sphere` store what
they are given, so a scene built through the interface can hold a sphere with
radius `-1` and specular coefficient `2`. -/
theorem add_sphere_unvalidated :
    (Scene.init.add_sphere (badSphere : Sphere ℝ)).Built ∧
    (badSphere : Sphere ℝ) ∈ (Scene.init.add_sphere (badSphere : Sphere ℝ)).spheres ∧
    ¬ (0 < (badSphere : Sphere ℝ).radius) ∧ ¬ ((badSphere : Sphere ℝ).specular ≤ 1) ∧
    ¬ (badSphere : Sphere ℝ).valid := by
  refine ⟨Scene.Built.add_sphere _ _ Scene.Built.init, ?_, ?_, ?_, ?_⟩
  · simp [Scene.add_sphere, Scene.init]
  · simp [badSphere]
  · simp [badSphere]
  · simp [Sphere.valid, badSphere]

/-- C13, amended. `Scene::add_sphere` appends the sphere as given, without any
check: the spheres of the new scene all satisfy `radius > 0` and
`0 ≤ specular ≤ 1` exactly when those of the old scene and the added sphere
do. -/
theorem add_sphere_keeps (sc : Scene ℝ) (s : Sphere ℝ) :
    (sc.add_sphere s).spheres = sc.spheres ++ [s] ∧
    ((∀ x ∈ (sc.add_sphere s).spheres, x.valid) ↔
      (∀ x ∈ sc.spheres, x.valid) ∧ s.valid) := by
  refine ⟨rfl, ?_⟩
  simp only [Scene.add_sphere, List.mem_append, List.mem_singleton]
  constructor
  · intro h
    exact ⟨fun x hx => h x (Or.inl hx), h s (Or.inr rfl)⟩
  · rintro ⟨h1, h2⟩ x (hx | hx)
    · exact h1 x hx
    · rw [hx]; exact h2

end Construction

/-! ## Properties of `Vec3::normalize` -/

section Normalize

theorem Vec3.smul_dot_smul (v : Vec3 ℝ) (k : ℝ) :
    (v * k).dot (v * k) = k * k * v.dot v := by
  simp only [Vec3.dot, Vec3.smul_def]
  ring

/-- C14. `Vec3::normalize` returns the zero vector when the length is below
`1e-6`; otherwise the length is not zero and it returns `v * (1 / length)`, a
positive multiple of `v` of length exactly 1. -/
theorem normalize_spec (v : Vec3 ℝ) :
    (v.length Real.sqrt < 1 / 1000000 → v.normalize Real.sqrt = ⟨0, 0, 0⟩) ∧
    (¬ v.length Real.sqrt < 1 / 1000000 →
      v.normalize Real.sqrt = v * (1 / v.length Real.sqrt) ∧
      v.length Real.sqrt ≠ 0 ∧ 0 < 1 / v.length Real.sqrt ∧
      (v.normalize Real.sqrt).length Real.sqrt = 1) := by
  constructor
  · intro h
    simp only [Vec3.normalize, if_pos h]
  · intro h
    have hpos : 0 < v.length Real.sqrt := lt_of_lt_of_le (by norm_num) (not_lt.1 h)
    have hn : v.normalize Real.sqrt = v * (1 / v.length Real.sqrt) := by
      simp only [Vec3.normalize, if_neg h]
    refine ⟨hn, hpos.ne', by positivity, ?_⟩
    rw [hn]
    unfold Vec3.length at hpos ⊢
    have hx : 0 < v.dot v := Real.sqrt_pos.1 hpos
    have hsq : Real.sqrt (v.dot v) * Real.sqrt (v.dot v) = v.dot v := Real.mul_self_sqrt hx.le
    rw [Vec3.smul_dot_smul, Real.sqrt_eq_one]
    have hs : Real.sqrt (v.dot v) ≠ 0 := hpos.ne'
    field_simp

end Normalize

/-! ## The closest-hit search -/

section ClosestHit

/-- The ray down the z axis hits the red sphere at `t = 4`, whatever its
specular coefficient. -/
theorem axis_hit (specular : ℝ) :
    (redSphere specular).intersect Real.sqrt axisRay = some 4 := by
  have := intersect_toward (redSphere specular) axisRay 5
    (by simp [axisRay, Vec3.dot]) (by simp [redSphere]) (by simp [redSphere])
    (by simp [redSphere, axisRay, Vec3.add_def, Vec3.smul_def])
  rw [this]
  simp [redSphere]; norm_num

end ClosestHit

/-! ## Scaling the direction -/

section Scale

end Scale

/-! ## The blend with the reflected colour -/

section Blend

theorem toUChar_lt (i : Int) : toUChar i < 256 := by
  unfold toUChar
  omega

theorem toUChar_natCast (n : Nat) (h : n < 256) : toUChar (n : Int) = n := by
  unfold toUChar
  omega

theorem truncToInt_natCast (n : Nat) (h : n < 256) : truncToInt ((n : ℝ)) = (n : Int) := by
  have hx : (n : ℝ) < 2147483648 := by
    have : (n : ℝ) < 256 := by exact_mod_cast h
    linarith
  rw [truncToInt_of_nonneg _ (Nat.cast_nonneg n) hx]
  exact Int.floor_natCast n

theorem shade_channel_lt (c : Color) (I : ℝ) (i : Fin 3) : (shade c I).channel i < 256 := by
  fin_cases i <;> exact toUChar_lt _

theorem blend_channel_lt (c r : Color) (k : ℝ) (i : Fin 3) : (blend c r k).channel i < 256 := by
  fin_cases i <;> exact toUChar_lt _

/-- Every channel returned by `Scene::trace_ray` is an `unsigned char` value. -/
theorem trace_ray_channel_lt (sc : Scene ℝ) (ray : Ray ℝ) (depth : Int) (i : Fin 3) :
    (sc.trace_ray Real.sqrt ray depth).channel i < 256 := by
  have hblack : (⟨0, 0, 0⟩ : Color).channel i < 256 := by fin_cases i <;> decide
  rw [Scene.trace_ray]
  split_ifs
  · exact hblack
  · cases closest_hit Real.sqrt sc.spheres ray with
    | none => exact hblack
    | some hit =>
      obtain ⟨t, sp⟩ := hit
      dsimp only
      cases reflect_ray Real.sqrt ray (ray.at t)
          ((ray.at t - sp.center).normalize Real.sqrt) sp.specular with
      | none => exact shade_channel_lt _ _ i
      | some rr => exact blend_channel_lt _ _ _ i

theorem blend_channel_one (c r : Nat) (h : r < 256) : blend_channel c r (1 : ℝ) = r := by
  unfold blend_channel
  rw [show (c : ℝ) * (1 - 1) + (r : ℝ) * 1 = (r : ℝ) by ring, truncToInt_natCast r h,
    toUChar_natCast r h]

theorem blend_one (c r : Color) (h : ∀ i : Fin 3, r.channel i < 256) :
    blend c r (1 : ℝ) = r := by
  obtain ⟨rr, rg, rb⟩ := r
  have h0 := h 0
  have h1 := h 1
  have h2 := h 2
  simp only [Color.channel] at h0 h1 h2
  simp only [blend, blend_channel_one _ _ h0, blend_channel_one _ _ h1, blend_channel_one _ _ h2]

/-- A hit whose reflection is traced returns the blend of the base shaded colour
with the colour of the recursive call. -/
theorem trace_ray_reflect_eq (sc : Scene ℝ) (ray : Ray ℝ) (depth : Int) (t : ℝ)
    (sp : Sphere ℝ) (rr : Ray ℝ) (hd : depth ≤ 5)
    (hc : closest_hit Real.sqrt sc.spheres ray = some (t, sp))
    (hr : reflect_ray Real.sqrt ray (ray.at t) ((ray.at t - sp.center).normalize Real.sqrt)
      sp.specular = some rr) :
    sc.trace_ray Real.sqrt ray depth
      = blend (shade sp.color (lighting Real.sqrt sc ray (ray.at t)
          ((ray.at t - sp.center).normalize Real.sqrt) sp.specular))
        (sc.trace_ray Real.sqrt rr (depth + 1)) sp.specular := by
  rw [Scene.trace_ray, if_neg (not_lt.2 hd), hc]
  dsimp only
  rw [hr]

/-- C17. On a hit of a sphere with specular coefficient exactly 1 whose
reflection is traced, `Scene::trace_ray` at a depth of at most 5 returns the
colour of the recursive call on the reflection ray at `depth + 1`; at depth 5
this is `(0,0,0)`. -/
theorem trace_ray_full_mirror (sc : Scene ℝ) (ray : Ray ℝ) (depth : Int) (t : ℝ)
    (sp : Sphere ℝ) (rr : Ray ℝ) (hd : depth ≤ 5)
    (hc : closest_hit Real.sqrt sc.spheres ray = some (t, sp)) (hs : sp.specular = 1)
    (hr : reflect_ray Real.sqrt ray (ray.at t) ((ray.at t - sp.center).normalize Real.sqrt)
      sp.specular = some rr) :
    sc.trace_ray Real.sqrt ray depth = sc.trace_ray Real.sqrt rr (depth + 1) ∧
    (depth = 5 → sc.trace_ray Real.sqrt ray depth = ⟨0, 0, 0⟩) := by
  have e : sc.trace_ray Real.sqrt ray depth = sc.trace_ray Real.sqrt rr (depth + 1) := by
    rw [trace_ray_reflect_eq sc ray depth t sp rr hd hc hr, hs]
    exact blend_one _ _ (trace_ray_channel_lt sc rr (depth + 1))
  refine ⟨e, fun h5 => ?_⟩
  rw [e, h5, Scene.trace_ray, if_pos (by decide)]

theorem axis_closest_hit :
    closest_hit Real.sqrt (mirrorScene : Scene ℝ).spheres axisRay = some (4, redSphere 1) := by
  have h := mirror_down_hit 0 (by norm_num) (by norm_num)
  rw [show (0 : ℝ) + 4 = 4 by norm_num] at h
  exact h

theorem axis_reflect :
    reflect_ray Real.sqrt (axisRay : Ray ℝ) ((axisRay : Ray ℝ).at 4)
      (((axisRay : Ray ℝ).at 4 - (redSphere (1 : ℝ)).center).normalize Real.sqrt)
      (redSphere (1 : ℝ)).specular = some (upRay (-4 + 1 / 10000)) := by
  have h := mirror_down_reflect 0
  rw [show (0 : ℝ) + 4 = 4 by norm_num] at h
  exact h

/-- Witness of C17: the first bounce between the two mirrors. -/
theorem trace_ray_full_mirror_witness :
    (0 : Int) ≤ 5 ∧
    closest_hit Real.sqrt (mirrorScene : Scene ℝ).spheres axisRay = some (4, redSphere 1) ∧
    (redSphere (1 : ℝ)).specular = 1 ∧
    ((mirrorScene : Scene ℝ).trace_ray Real.sqrt axisRay 0
        = (mirrorScene : Scene ℝ).trace_ray Real.sqrt (upRay (-4 + 1 / 10000)) (0 + 1) ∧
      ((0 : Int) = 5 → (mirrorScene : Scene ℝ).trace_ray Real.sqrt axisRay 0 = ⟨0, 0, 0⟩)) :=
  ⟨by decide, axis_closest_hit, rfl,
   trace_ray_full_mirror mirrorScene axisRay 0 4 (redSphere 1) (upRay (-4 + 1 / 10000))
     (by decide) axis_closest_hit rfl axis_reflect⟩

end Blend

/-! ## The reflection ray -/

section Reflection

theorem Vec3.dot_smul_left (u v : Vec3 ℝ) (k : ℝ) : (u * k).dot v = k * u.dot v := by
  simp only [Vec3.dot, Vec3.smul_def]; ring

theorem Vec3.dot_smul_right (u v : Vec3 ℝ) (k : ℝ) : u.dot (v * k) = k * u.dot v := by
  simp only [Vec3.dot, Vec3.smul_def]; ring

/-- The cases in which `Sphere::intersect` returns a value. -/
theorem intersect_some_cases (s : Sphere ℝ) (ray : Ray ℝ) (t : ℝ)
    (h : s.intersect Real.sqrt ray = some t) :
    0 ≤ s.discriminant ray ∧ 0 ≤ t ∧
      (t = s.root_near Real.sqrt ray ∨
        (t = s.root_far Real.sqrt ray ∧ s.root_near Real.sqrt ray < 0)) := by
  rw [intersect_unfold] at h
  split_ifs at h with h1 h2 h3
  · have e := Option.some.inj h
    exact ⟨not_lt.1 h1, by rw [← e]; exact not_lt.1 h3, Or.inr ⟨e.symm, h2⟩⟩
  · have e := Option.some.inj h
    exact ⟨not_lt.1 h1, by rw [← e]; exact not_lt.1 h2, Or.inl e.symm⟩

/-- A returned parameter is a point of the surface. -/
theorem hit_on_surface (s : Sphere ℝ) (ray : Ray ℝ) (t : ℝ)
    (hdir : ray.direction ≠ ⟨0, 0, 0⟩) (h : s.intersect Real.sqrt ray = some t) :
    (ray.at t - s.center).dot (ray.at t - s.center) = s.radius * s.radius := by
  have ha : 0 < Sphere.coeff_a ray := Vec3.dot_self_pos _ hdir
  obtain ⟨hd, -, hroot⟩ := intersect_some_cases s ray t h
  have hs : s.on_surface ray t :=
    (on_surface_iff_root s ray ha hd t).2 (hroot.imp id (fun h => h.1))
  unfold Sphere.on_surface at hs
  rw [hs]; ring

theorem hit_length (s : Sphere ℝ) (ray : Ray ℝ) (t : ℝ) (hR : 0 ≤ s.radius)
    (hdir : ray.direction ≠ ⟨0, 0, 0⟩) (h : s.intersect Real.sqrt ray = some t) :
    (ray.at t - s.center).length Real.sqrt = s.radius := by
  unfold Vec3.length
  rw [hit_on_surface s ray t hdir h]
  exact Real.sqrt_mul_self hR

theorem hit_normal_eq (s : Sphere ℝ) (ray : Ray ℝ) (t : ℝ) (hR : 1 / 1000000 ≤ s.radius)
    (hdir : ray.direction ≠ ⟨0, 0, 0⟩) (h : s.intersect Real.sqrt ray = some t) :
    (ray.at t - s.center).normalize Real.sqrt = (ray.at t - s.center) * (1 / s.radius) := by
  have hl := hit_length s ray t (le_trans (by norm_num) hR) hdir h
  simp only [Vec3.normalize, hl, if_neg (not_lt.2 hR)]

theorem hit_normal_unit (s : Sphere ℝ) (ray : Ray ℝ) (t : ℝ) (hR : 1 / 1000000 ≤ s.radius)
    (hdir : ray.direction ≠ ⟨0, 0, 0⟩) (h : s.intersect Real.sqrt ray = some t) :
    ((ray.at t - s.center).normalize Real.sqrt).dot
      ((ray.at t - s.center).normalize Real.sqrt) = 1 := by
  have hpos : 0 < s.radius := lt_of_lt_of_le (by norm_num) hR
  rw [hit_normal_eq s ray t hR hdir h, Vec3.dot_smul_left, Vec3.dot_smul_right,
    hit_on_surface s ray t hdir h]
  field_simp

/-- The mirror image of `d` about a unit vector `n` has the squared length of
`d`. -/
theorem mirror_dot_self (d n : Vec3 ℝ) (hn : n.dot n = 1) :
    (d - n * (2 * n.dot d)).dot (d - n * (2 * n.dot d)) = d.dot d := by
  simp only [Vec3.dot, Vec3.sub_def, Vec3.smul_def] at hn ⊢
  linear_combination (4 * (n.x * d.x + n.y * d.y + n.z * d.z) ^ 2) * hn

/-- C20. For a sphere of radius at least `1e-6` and a ray with non-zero direction
on which `Sphere::intersect` returns `t`, the normal at the hit point has length
1 and the mirror direction has the length of the ray direction; so with a
direction longer than `1e-6` and a positive specular coefficient the reflection
ray is built. -/
theorem hit_reflection_kept (s : Sphere ℝ) (ray : Ray ℝ) (t : ℝ)
    (hR : 1 / 1000000 ≤ s.radius) (hdir : ray.direction ≠ ⟨0, 0, 0⟩)
    (hi : s.intersect Real.sqrt ray = some t) :
    ((ray.at t - s.center).normalize Real.sqrt).length Real.sqrt = 1 ∧
    (ray.direction - (ray.at t - s.center).normalize Real.sqrt
        * (2 * ((ray.at t - s.center).normalize Real.sqrt).dot ray.direction)).length Real.sqrt
      = ray.direction.length Real.sqrt ∧
    (1 / 1000000 < ray.direction.length Real.sqrt → 0 < s.specular →
      ∃ rr, reflect_ray Real.sqrt ray (ray.at t)
        ((ray.at t - s.center).normalize Real.sqrt) s.specular = some rr) := by
  have hnn := hit_normal_unit s ray t hR hdir hi
  have hmm := mirror_dot_self ray.direction _ hnn
  have hlen : (ray.direction - (ray.at t - s.center).normalize Real.sqrt
        * (2 * ((ray.at t - s.center).normalize Real.sqrt).dot ray.direction)).length Real.sqrt
      = ray.direction.length Real.sqrt := by
    unfold Vec3.length
    rw [hmm]
  refine ⟨?_, hlen, fun hd hs => ?_⟩
  · unfold Vec3.length
    rw [hnn, Real.sqrt_one]
  · unfold reflect_ray
    dsimp only
    rw [if_pos hs, if_pos (by rw [hlen]; exact hd)]
    exact ⟨_, rfl⟩

/-- Witness of C20: the hit of the red mirror down the z axis. -/
theorem hit_reflection_kept_witness :
    (1 / 1000000 : ℝ) ≤ (redSphere (1 : ℝ)).radius ∧
    (axisRay : Ray ℝ).direction ≠ ⟨0, 0, 0⟩ ∧
    (redSphere (1 : ℝ)).intersect Real.sqrt axisRay = some 4 ∧
    (((axisRay : Ray ℝ).at 4 - (redSphere (1 : ℝ)).center).normalize Real.sqrt).length
      Real.sqrt = 1 :=
  ⟨by simp [redSphere]; norm_num, by simp [axisRay], axis_hit 1,
   (hit_reflection_kept (redSphere 1) axisRay 4 (by simp [redSphere]; norm_num)
     (by simp [axisRay]) (axis_hit 1)).1⟩

end Reflection

/-! ## `Sphere::intersect` in binary32 arithmetic: a far sphere -/

section Binary32Intersect

theorem roundF32_1 : roundF32 1 = 1 := by
  have hlog : Nat.log 2 1 = 0 := by rw [Nat.log_eq_iff] <;> norm_num
  have e : binaryExponent 1 = 0 := by
    simp only [binaryExponent, show ((1 : ℚ)).num = 1 from rfl,
      show ((1 : ℚ)).den = 1 from rfl]
    norm_num [hlog]
  simp only [roundF32, e]
  norm_num [roundHalfEven]

theorem roundF32_2 : roundF32 2 = 2 := by
  have hlog : Nat.log 2 2 = 1 := by rw [Nat.log_eq_iff] <;> norm_num
  have e : binaryExponent 2 = 1 := by
    simp only [binaryExponent, show ((2 : ℚ)).num = 2 from rfl,
      show ((2 : ℚ)).den = 1 from rfl]
    norm_num [hlog]
  simp only [roundF32, e]
  norm_num [roundHalfEven]

theorem roundF32_4 : roundF32 4 = 4 := by
  have hlog : Nat.log 2 4 = 2 := by rw [Nat.log_eq_iff] <;> norm_num
  have e : binaryExponent 4 = 2 := by
    simp only [binaryExponent, show ((4 : ℚ)).num = 4 from rfl,
      show ((4 : ℚ)).den = 1 from rfl]
    norm_num [hlog]
  simp only [roundF32, e]
  norm_num [roundHalfEven]

theorem roundF32_5000 : roundF32 5000 = 5000 := by
  have hlog : Nat.log 2 5000 = 12 := by rw [Nat.log_eq_iff] <;> norm_num
  have e : binaryExponent 5000 = 12 := by
    simp only [binaryExponent, show ((5000 : ℚ)).num = 5000 from rfl,
      show ((5000 : ℚ)).den = 1 from rfl]
    norm_num [hlog]
  simp only [roundF32, e]
  norm_num [roundHalfEven]

theorem roundF32_10000 : roundF32 10000 = 10000 := by
  have hlog : Nat.log 2 10000 = 13 := by rw [Nat.log_eq_iff] <;> norm_num
  have e : binaryExponent 10000 = 13 := by
    simp only [binaryExponent, show ((10000 : ℚ)).num = 10000 from rfl,
      show ((10000 : ℚ)).den = 1 from rfl]
    norm_num [hlog]
  simp only [roundF32, e]
  norm_num [roundHalfEven]

theorem roundF32_25000000 : roundF32 25000000 = 25000000 := by
  have hlog : Nat.log 2 25000000 = 24 := by rw [Nat.log_eq_iff] <;> norm_num
  have e : binaryExponent 25000000 = 24 := by
    simp only [binaryExponent, show ((25000000 : ℚ)).num = 25000000 from rfl,
      show ((25000000 : ℚ)).den = 1 from rfl]
    norm_num [hlog]
  simp only [roundF32, e]
  norm_num [roundHalfEven]

theorem roundF32_100000000 : roundF32 100000000 = 100000000 := by
  have hlog : Nat.log 2 100000000 = 26 := by rw [Nat.log_eq_iff] <;> norm_num
  have e : binaryExponent 100000000 = 26 := by
    simp only [binaryExponent, show ((100000000 : ℚ)).num = 100000000 from rfl,
      show ((100000000 : ℚ)).den = 1 from rfl]
    norm_num [hlog]
  simp only [roundF32, e]
  norm_num [roundHalfEven]

theorem roundF32_24999999 : roundF32 24999999 = 25000000 := by
  have hlog : Nat.log 2 24999999 = 24 := by rw [Nat.log_eq_iff] <;> norm_num
  have e : binaryExponent 24999999 = 24 := by
    simp only [binaryExponent, show ((24999999 : ℚ)).num = 24999999 from rfl,
      show ((24999999 : ℚ)).den = 1 from rfl]
    norm_num [hlog]
  simp only [roundF32, e]
  norm_num [roundHalfEven]


theorem roundF32_neg5000 : roundF32 (-5000) = -5000 := by
  have hlog : Nat.log 2 5000 = 12 := by rw [Nat.log_eq_iff] <;> norm_num
  have e : binaryExponent (-5000) = 12 := by
    simp only [binaryExponent, show ((-5000 : ℚ)).num = -5000 from rfl,
      show ((-5000 : ℚ)).den = 1 from rfl]
    norm_num [hlog]
  simp only [roundF32, e]
  norm_num [roundHalfEven]

theorem roundF32_neg10000 : roundF32 (-10000) = -10000 := by
  have hlog : Nat.log 2 10000 = 13 := by rw [Nat.log_eq_iff] <;> norm_num
  have e : binaryExponent (-10000) = 13 := by
    simp only [binaryExponent, show ((-10000 : ℚ)).num = -10000 from rfl,
      show ((-10000 : ℚ)).den = 1 from rfl]
    norm_num [hlog]
  simp only [roundF32, e]
  norm_num [roundHalfEven]


theorem roundF32_zero : roundF32 0 = 0 := by
  simp [roundF32]

theorem far_oc :
    (axisRay : Ray ℚ).origin.sub32 (farSphere : Sphere ℚ).center = ⟨0, 0, 5000⟩ := by
  simp only [Vec3.sub32, fsub, farSphere, axisRay]
  norm_num [roundF32_zero, roundF32_5000]

theorem far_a : (axisRay : Ray ℚ).direction.dot32 (axisRay : Ray ℚ).direction = 1 := by
  simp only [Vec3.dot32, fadd, fmul, axisRay]
  norm_num [roundF32_zero, roundF32_1]

theorem far_b :
    fmul 2 ((⟨0, 0, 5000⟩ : Vec3 ℚ).dot32 (axisRay : Ray ℚ).direction) = -10000 := by
  simp only [Vec3.dot32, fadd, fmul, axisRay]
  norm_num [roundF32_zero, roundF32_neg5000, roundF32_neg10000]

theorem far_c :
    fsub ((⟨0, 0, 5000⟩ : Vec3 ℚ).dot32 ⟨0, 0, 5000⟩) (fmul (farSphere : Sphere ℚ).radius (farSphere : Sphere ℚ).radius)
      = 25000000 := by
  simp only [Vec3.dot32, fadd, fsub, fmul, farSphere]
  norm_num [roundF32_zero, roundF32_1, roundF32_25000000, roundF32_24999999]

theorem far_discriminant :
    fsub (fmul (-10000) (-10000)) (fmul (fmul 4 1) 25000000) = 0 := by
  simp only [fsub, fmul]
  norm_num [roundF32_zero, roundF32_4, roundF32_100000000]

theorem far_t :
    fdiv (fsub (-(-10000)) (fsqrt 0)) (fmul 2 1) = 5000 := by
  simp only [fdiv, fsub, fmul, fsqrt]
  norm_num [roundF32_zero, roundF32_2, roundF32_5000, roundF32_10000]

/-- On the sphere of radius 1 at distance 5000 the `float` computation of `c`
rounds `25000000 - 1` to `25000000`, the discriminant is 0 and the result is
5000. -/
theorem intersect32_far : (farSphere : Sphere ℚ).intersect32 axisRay = some 5000 := by
  unfold Sphere.intersect32
  simp only [far_oc, far_a, far_b, far_c, far_discriminant, far_t]
  norm_num

/-- C3, as stated, fails on the `float` arithmetic of the code.  With the origin
`(0,0,0)`, the unit direction `(0,0,-1)`, radius 1 and distance 5000, all exactly
representable, `Sphere::intersect` returns `5000`, the distance of the centre, and
not `d - r = 4999`. -/
theorem intersect32_far_sphere :
    (axisRay : Ray ℚ).direction.dot (axisRay : Ray ℚ).direction = 1 ∧
    (0 : ℚ) < (farSphere : Sphere ℚ).radius ∧ (farSphere : Sphere ℚ).radius < 5000 ∧
    (farSphere : Sphere ℚ).center
      = (axisRay : Ray ℚ).origin + (axisRay : Ray ℚ).direction * (5000 : ℚ) ∧
    (farSphere : Sphere ℚ).intersect32 axisRay = some 5000 ∧
    (farSphere : Sphere ℚ).intersect32 axisRay
      ≠ some (5000 - (farSphere : Sphere ℚ).radius) := by
  refine ⟨?_, ?_, ?_, ?_, intersect32_far, ?_⟩
  · simp only [Vec3.dot, axisRay]
    norm_num
  · simp only [farSphere]
    norm_num
  · simp only [farSphere]
    norm_num
  · show (⟨0, 0, -5000⟩ : Vec3 ℚ) = ⟨0 + 0 * 5000, 0 + 0 * 5000, 0 + -1 * 5000⟩
    norm_num
  · rw [intersect32_far]
    simp only [farSphere]
    norm_num

end Binary32Intersect

end Raytracing
